import Mathlib

/-!
Verification development for the ariane-xml query engine.

The definitions below are a shallow embedding of the C++ sources:

* `src/src/parser/lexer.cpp`        — `tokenize`
* `src/src/parser/parser.cpp`       — the recursive-descent parser
* `src/src/executor/xml_navigator.cpp` — tree-search and condition evaluation
* `src/src/executor/query_executor.cpp` — aggregation, ordering, pagination,
  broadcast row formation and the multithreaded scheduler
* `src/ariane-xml-c-kernel/src/dsn/dsn_query_rewriter.cpp` — shortcut expansion

Modelling conventions:

* C++ `double` arithmetic is modelled with exact rationals (`ℚ`).  Every
  numeric example used by a theorem involves values on which IEEE double
  arithmetic is exact, so the rational model agrees with the binary one.
* `std::stod` is modelled by `parseFloat` (leading whitespace, sign, decimal
  mantissa with at least one digit, optional exponent; hex/inf/nan forms are
  not modelled — no theorem depends on them).  `std::to_string(double)` is
  modelled by `fmtDouble` (printf "%f": six fractional digits).
* pugixml documents are modelled by `XNode` trees; a document is the list of
  its top-level nodes.  Parent pointers are modelled by passing the chain of
  strict-ancestor element names explicitly (`chain`), since partial-path
  matching compares against the root-anchored ancestor name sequence.
* `std::regex` (used only by LIKE / NOT LIKE) is an external collaborator; it
  is modelled by an abstract `RegexModel` (validity test plus search test).
  No claim exercises LIKE.
* Exceptions caught at a file boundary are modelled by `Option`: a file whose
  load or processing fails is a `none` entry and contributes zero rows.
-/

/-- Numeric character value of a decimal digit. -/
def digitVal (c : Char) : Nat := c.toNat - '0'.toNat

/-- Value of a list of decimal digits (most significant first). -/
def digitsVal (cs : List Char) : Nat := cs.foldl (fun acc c => 10 * acc + digitVal c) 0

/-- Lexical decomposition of a `std::stod` input: sign, integer-part value,
fraction digits (value and count), and the optional exponent (present flag,
sign, value).  Keeping this stage free of rational arithmetic makes it fully
computable by `decide`. -/
structure FloatParts where
  neg : Bool := false
  ip : Nat := 0
  fpVal : Nat := 0
  fpLen : Nat := 0
  hasExp : Bool := false
  eneg : Bool := false
  eVal : Nat := 0
deriving DecidableEq, Repr

/-- Character-level analysis of `std::stod`: skip leading whitespace,
optional sign, decimal mantissa (digits, optional point, digits — at least
one digit overall), optional exponent (taken only when at least one digit
follows, as strtod backtracks over an incomplete exponent).  Returns `none`
exactly when `std::stod` would throw (no conversion possible).  Hexadecimal,
infinity and NaN forms are not modelled. -/
def parseFloatParts (s : String) : Option FloatParts :=
  let cs := s.toList.dropWhile Char.isWhitespace
  let (neg, cs1) : Bool × List Char :=
    match cs with
    | '-' :: rest => (true, rest)
    | '+' :: rest => (false, rest)
    | rest => (false, rest)
  let ip := cs1.takeWhile Char.isDigit
  let r1 := cs1.dropWhile Char.isDigit
  let (fp, r2) : List Char × List Char :=
    match r1 with
    | '.' :: rest => (rest.takeWhile Char.isDigit, rest.dropWhile Char.isDigit)
    | _ => ([], r1)
  if ip.isEmpty ∧ fp.isEmpty then
    none
  else
    let e : Bool × Bool × List Char :=
      match r2 with
      | 'e' :: rest => expDigits rest
      | 'E' :: rest => expDigits rest
      | _ => (false, false, [])
    some { neg := neg, ip := digitsVal ip, fpVal := digitsVal fp, fpLen := fp.length,
           hasExp := e.1, eneg := e.2.1, eVal := digitsVal e.2.2 }
where
  /-- Exponent suffix: present flag, sign, digits (empty exponent is absent). -/
  expDigits (rest : List Char) : Bool × Bool × List Char :=
    let (eneg, ds) : Bool × List Char :=
      match rest with
      | '-' :: more => (true, more)
      | '+' :: more => (false, more)
      | more => (false, more)
    let ed := ds.takeWhile Char.isDigit
    if ed.isEmpty then (false, false, []) else (true, eneg, ed)

/-- The rational value of a decomposed float: signed mantissa times the
power-of-ten exponent. -/
def floatPartsValue (p : FloatParts) : ℚ :=
  let mant : ℚ := (p.ip : ℚ) + (p.fpVal : ℚ) / (10 : ℚ) ^ p.fpLen
  let ex : ℚ :=
    if p.hasExp then
      (if p.eneg then ((10 : ℚ) ^ p.eVal)⁻¹ else (10 : ℚ) ^ p.eVal)
    else 1
  (if p.neg then -mant else mant) * ex

/-- Model of `std::stod`: lexical analysis, then value assembly. -/
def parseFloat (s : String) : Option ℚ :=
  (parseFloatParts s).map floatPartsValue

/-- Left-pad a string with zeros to a given width. -/
def zeroPad (k : Nat) (s : String) : String :=
  String.mk (List.replicate (k - s.length) '0') ++ s

/-- Model of `std::to_string(double)` (printf "%f"): sign, integer part, '.'
and exactly six fractional digits.  Ties are rounded up; every value any
theorem formats is exact at six digits, where all rounding modes agree. -/
def fmtDouble (q : ℚ) : String :=
  let a : ℚ := |q|
  let n : ℤ := ⌊a * 1000000 + 1 / 2⌋
  let ip : ℤ := n / 1000000
  let fp : ℤ := n % 1000000
  (if q < 0 then "-" else "") ++ toString ip ++ "." ++ zeroPad 6 (toString fp.toNat)

/-! XML document model (pugixml subset used by the navigator): element nodes
with a name and children, and pcdata (text) nodes.  Attributes are never read
by any function a claim depends on and are not modelled. -/

/-- An XML node: an element or a text (pcdata) node. -/
inductive XNode where
  | elem (name : String) (children : List XNode) : XNode
  | text (s : String) : XNode
deriving Repr

/-- A parsed document: the list of top-level children of the document node
(pugixml's document node itself has no name and is not an element). -/
abbrev XDoc := List XNode

/-- Model of `pugi::xml_node::name()`: elements report their tag, text nodes
report the empty string. -/
def nodeName : XNode → String
  | .elem n _ => n
  | .text _ => ""

/-- Children of a node (text nodes have none). -/
def childrenOf : XNode → List XNode
  | .elem _ cs => cs
  | .text _ => []

/-- Model of `pugi::xml_node::child_value()`: the text of the first pcdata
child, or the empty string. -/
def childValue (n : XNode) : String :=
  match (childrenOf n).find? (fun c => match c with | .text _ => true | .elem _ _ => false) with
  | some (.text s) => s
  | _ => ""

/-- First element child of a document (`extractValues` scans `doc.children()`
for the first node of element type). -/
def firstElemChild (doc : XDoc) : Option XNode :=
  doc.find? (fun c => match c with | .elem _ _ => true | .text _ => false)

mutual
/-- Embedding of `XmlNavigator::findFirstElementByName`: return the node
itself when its name matches (text nodes report the empty name), else the
first match in a depth-first scan of the children (text nodes have none). -/
def findFirstElementByName : XNode → String → Option XNode
  | .elem n cs, name =>
    if n = name then some (.elem n cs) else findFirstInList cs name
  | .text s, name =>
    if "" = name then some (.text s) else none

/-- Depth-first scan of a child list for `findFirstElementByName`. -/
def findFirstInList : List XNode → String → Option XNode
  | [], _ => none
  | c :: rest, name =>
    match findFirstElementByName c name with
    | some found => some found
    | none => findFirstInList rest name
end

mutual
/-- All element descendants of a node (the node included), each paired with
its root-anchored ancestor-name chain; `chain` lists the names of the strict
ancestors of `node`, outermost first.  This realises the `getNodePath` /
`searchTree` pair of `findNodesByPartialPath`: pugixml walks parent pointers
up to the document node, so the chain is anchored at the document root. -/
def collectElems (chain : List String) : XNode → List (List String × XNode)
  | .text _ => []
  | .elem name cs =>
    (chain ++ [name], .elem name cs) :: collectElemsList (chain ++ [name]) cs

/-- `collectElems` over a child list, in document order. -/
def collectElemsList (chain : List String) : List XNode → List (List String × XNode)
  | [] => []
  | c :: rest => collectElems chain c ++ collectElemsList chain rest
end

/-- Embedding of the `endsWithPath` helper: the node path ends with the
target path. -/
def endsWithPath (nodePath targetPath : List String) : Bool :=
  targetPath.isSuffixOf nodePath

/-- Embedding of `XmlNavigator::findNodesByPartialPath` started at a node
whose strict-ancestor name chain is `chain`: all element descendants (the
node included) whose root-anchored path ends with `path`, in document
order.  Empty `path` matches nothing. -/
def findNodesByPartialPath (chain : List String) (node : XNode) (path : List String) : List XNode :=
  if path.isEmpty then []
  else (collectElems chain node).filterMap
    (fun p => if endsWithPath p.1 path then some p.2 else none)

/-- `findNodesByPartialPath` started at the document node (empty chain, all
top-level children scanned; the document node itself is not an element). -/
def findNodesByPartialPathDoc (doc : XDoc) (path : List String) : List XNode :=
  if path.isEmpty then []
  else (collectElemsList [] doc).filterMap
    (fun p => if endsWithPath p.1 path then some p.2 else none)

/-! AST data model (`src/include/parser/ast.h`).  `WhereExpr`'s C++ class
hierarchy (base class with `WhereCondition` / `WhereLogical` subclasses,
discriminated by `dynamic_cast`) is modelled as a sum type.  The `Query`
member named `where` in C++ is called `whereClause` here and `FieldPath`'s
`alias` member is called `alias_name`, because both words are reserved in
Lean. -/

/-- Token kinds (`enum class TokenType`).  `PREFIX` is rendered `PREFIX_KW`. -/
inductive TokenType where
  | SELECT | DISTINCT | FROM | WHERE_KW | ORDER | BY | LIMIT | OFFSET
  | ASC | DESC | COUNT | SUM | AVG | MIN | MAX | ASTERISK | AT
  | SET | SHOW | XSD | DEST | GENERATE | XML | PREFIX_KW | CHECK | VERBOSE
  | FOR | IN | GROUP | HAVING | AS | IDENTIFIER | STRING_LITERAL | NUMBER
  | DOT | SLASH | COMMA | LESS_THAN | GREATER_THAN | EQUALS | NOT_EQUALS
  | LESS_EQUAL | GREATER_EQUAL | AND | OR | LPAREN | RPAREN | IS | NOT
  | NULL_LITERAL | LIKE | REGEX_LITERAL | END_OF_INPUT | INVALID
deriving DecidableEq, Repr

/-- A lexer token (`struct Token`). -/
structure Token where
  type : TokenType
  value : String
  position : Nat
deriving DecidableEq, Repr

/-- Comparison operators for WHERE conditions (`enum class ComparisonOp`). -/
inductive ComparisonOp where
  | EQUALS | NOT_EQUALS | LESS_THAN | GREATER_THAN | LESS_EQUAL | GREATER_EQUAL
  | IS_NULL | IS_NOT_NULL | LIKE | NOT_LIKE | IN_OP | NOT_IN
deriving DecidableEq, Repr

/-- Aggregate function kinds (`enum class AggregateFunc`). -/
inductive AggregateFunc where
  | NONE | COUNT | SUM | AVG | MIN | MAX
deriving DecidableEq, Repr

/-- A field path with its flags (`struct FieldPath`). -/
structure FieldPath where
  components : List String := []
  include_filename : Bool := false
  is_variable_ref : Bool := false
  variable_name : String := ""
  aggregate : AggregateFunc := .NONE
  aggregate_arg : String := ""
  alias_name : String := ""
  is_count_star : Bool := false
  is_attribute : Bool := false
  attribute_name : String := ""
deriving DecidableEq, Repr

/-- Logical connectives (`enum class LogicalOp`). -/
inductive LogicalOp where
  | NONE | AND | OR
deriving DecidableEq, Repr

/-- A simple comparison condition (`struct WhereCondition`). -/
structure WhereCondition where
  field : FieldPath
  op : ComparisonOp
  value : String := ""
  is_numeric : Bool := false
  values : List String := []
deriving DecidableEq, Repr

/-- WHERE expression tree (`struct WhereExpr` with its two subclasses). -/
inductive WhereExpr where
  | cond (c : WhereCondition) : WhereExpr
  | logical (op : LogicalOp) (left right : WhereExpr) : WhereExpr
deriving DecidableEq, Repr

/-- A FOR ... IN ... [AT ...] clause (`struct ForClause`). -/
structure ForClause where
  variable_name : String := ""
  path : FieldPath := {}
  position_var : String := ""
  has_position : Bool := false
deriving DecidableEq, Repr

/-- ORDER BY sort direction (`enum class SortDirection`). -/
inductive SortDirection where
  | ASC | DESC
deriving DecidableEq, Repr

/-- One ORDER BY entry (`struct OrderByField`). -/
structure OrderByField where
  field_name : String
  direction : SortDirection := .ASC
deriving DecidableEq, Repr

/-- The query AST (`struct Query`).  Optional owning pointers become
`Option`; `limit`/`offset` keep the C++ convention of `-1` meaning absent. -/
structure Query where
  select_fields : List FieldPath := []
  distinct : Bool := false
  from_path : String := ""
  for_clauses : List ForClause := []
  whereClause : Option WhereExpr := none
  group_by_fields : List String := []
  having : Option WhereExpr := none
  order_by_fields : List OrderByField := []
  limit : Int := -1
  offset : Int := -1
  has_aggregates : Bool := false
deriving DecidableEq, Repr

/-- Helper `Query::isForVariable`. -/
def Query.isForVariable (q : Query) (name : String) : Bool :=
  q.for_clauses.any (fun fc => fc.variable_name = name)

/-- Helper `Query::isPositionVariable`. -/
def Query.isPositionVariable (q : Query) (name : String) : Bool :=
  q.for_clauses.any (fun fc => fc.has_position && fc.position_var = name)

/-- A result row (`ResultRow`): ordered (field name, value) pairs. -/
abbrev ResultRow := List (String × String)

/-! Remaining navigator functions (`xml_navigator.cpp`). -/

/-- Embedding of `XmlNavigator::extractValues`: FILE_NAME yields the filename
itself; a single component matches only the direct children of the root
element; a multi-component path uses suffix (partial-path) matching over the
whole document; elements whose text content is empty are skipped.  Results
are (filename, value) pairs (`struct XmlResult`). -/
def extractValues (doc : XDoc) (filename : String) (field : FieldPath) :
    List (String × String) :=
  if field.include_filename then [(filename, filename)]
  else if field.components.isEmpty then []
  else
    match field.components with
    | [c] =>
      match firstElemChild doc with
      | none => []
      | some root =>
        (childrenOf root).filterMap (fun ch =>
          if nodeName ch = c then
            if childValue ch ≠ "" then some (filename, childValue ch) else none
          else none)
    | comps =>
      (findNodesByPartialPathDoc doc comps).filterMap (fun n =>
        if childValue n ≠ "" then some (filename, childValue n) else none)

/-- Embedding of `XmlNavigator::getNodeValue`: a single component resolves to
the first matching element anywhere below (or at) the node, depth-first; a
multi-component path uses partial-path matching from the node (`chain` is the
node's strict-ancestor name chain, which root-anchors the match). -/
def getNodeValue (chain : List String) (node : XNode) (field : FieldPath) : String :=
  match field.components with
  | [] => ""
  | [c] =>
    match findFirstElementByName node c with
    | some found => childValue found
    | none => ""
  | comps =>
    match findNodesByPartialPath chain node comps with
    | [] => ""
    | n :: _ => childValue n

/-- First child with a given name (`pugi::xml_node::child(name)`). -/
def firstChildNamed (n : XNode) (name : String) : Option XNode :=
  (childrenOf n).find? (fun c => nodeName c = name)

/-- Child-by-child descent along a component list. -/
def descendPath : XNode → List String → Option XNode
  | n, [] => some n
  | n, c :: rest =>
    match firstChildNamed n c with
    | none => none
    | some ch => descendPath ch rest

/-- Embedding of `XmlNavigator::getNodeValueRelative`: resolve the components
after `offset` by direct child descent from the node (with the
single-component shorthand delegating to `findFirstElementByName`). -/
def getNodeValueRelative (node : XNode) (field : FieldPath) (offset : Nat) : String :=
  if field.components.isEmpty ∨ field.components.length ≤ offset then ""
  else if field.components.length = 1 ∧ offset = 0 then
    match findFirstElementByName node (field.components.getD 0 "") with
    | some found => childValue found
    | none => ""
  else
    match descendPath node (field.components.drop offset) with
    | some n => childValue n
    | none => ""

/-- Lexicographic comparison of character lists (the order of C++
`std::string::operator<`, byte-wise for the ASCII range; `String`'s builtin
order is iterator-based and does not reduce in the kernel). -/
def charListLt : List Char → List Char → Bool
  | [], [] => false
  | [], _ :: _ => true
  | _ :: _, [] => false
  | a :: as, b :: bs =>
    if a < b then true else if b < a then false else charListLt as bs

/-- Lexicographic string comparison (`std::string::operator<`). -/
def strLt (a b : String) : Bool :=
  charListLt a.toList b.toList

/-- Abstract model of `std::regex` as used by LIKE / NOT LIKE: whether a
pattern compiles, and whether `regex_search` finds it in a value.  The
navigator only consumes these two tests. -/
structure RegexModel where
  valid : String → Bool
  search : String → String → Bool

/-- Embedding of `XmlNavigator::compareValues`: LIKE / NOT LIKE by regex
search (an invalid pattern yields false), numeric comparisons by parsing both
sides as floats (any parse failure yields false), string comparisons
lexicographically. -/
def compareValues (rm : RegexModel) (nodeValue targetValue : String)
    (op : ComparisonOp) (isNumeric : Bool) : Bool :=
  match op with
  | .LIKE => if rm.valid targetValue then rm.search nodeValue targetValue else false
  | .NOT_LIKE => if rm.valid targetValue then !rm.search nodeValue targetValue else false
  | _ =>
    if isNumeric then
      match parseFloat nodeValue, parseFloat targetValue with
      | some a, some b =>
        match op with
        | .EQUALS => a == b
        | .NOT_EQUALS => a != b
        | .LESS_THAN => decide (a < b)
        | .GREATER_THAN => decide (b < a)
        | .LESS_EQUAL => decide (a ≤ b)
        | .GREATER_EQUAL => decide (b ≤ a)
        | _ => false
      | _, _ => false
    else
      match op with
      | .EQUALS => nodeValue == targetValue
      | .NOT_EQUALS => nodeValue != targetValue
      | .LESS_THAN => strLt nodeValue targetValue
      | .GREATER_THAN => strLt targetValue nodeValue
      | .LESS_EQUAL => ! strLt targetValue nodeValue
      | .GREATER_EQUAL => ! strLt nodeValue targetValue
      | _ => false

/-- Embedding of the two-argument `XmlNavigator::evaluateCondition`: IS NULL
is true iff the resolved value is empty, IS NOT NULL iff it is non-empty;
other operators evaluate `compareValues` on a non-empty resolved value and
are false on an empty one. -/
def evaluateCondition (rm : RegexModel) (chain : List String) (node : XNode)
    (condition : WhereCondition) : Bool :=
  let nodeValue := getNodeValue chain node condition.field
  match condition.op with
  | .IS_NULL => nodeValue = ""
  | .IS_NOT_NULL => nodeValue ≠ ""
  | _ =>
    if nodeValue = "" then false
    else compareValues rm nodeValue condition.value condition.op condition.is_numeric

/-- Embedding of the three-argument (parent-depth) overload of
`XmlNavigator::evaluateCondition`, which resolves through
`getNodeValueRelative`. -/
def evaluateConditionRel (rm : RegexModel) (node : XNode)
    (condition : WhereCondition) (parentDepth : Nat) : Bool :=
  let nodeValue := getNodeValueRelative node condition.field parentDepth
  match condition.op with
  | .IS_NULL => nodeValue = ""
  | .IS_NOT_NULL => nodeValue ≠ ""
  | _ =>
    if nodeValue = "" then false
    else compareValues rm nodeValue condition.value condition.op condition.is_numeric

/-- Embedding of `XmlNavigator::evaluateWhereExpr` (parent-depth form): a
missing expression passes everything, conditions evaluate via the
parent-depth condition overload, logical nodes combine both sides. -/
def evaluateWhereExpr (rm : RegexModel) (node : XNode) :
    Option WhereExpr → Nat → Bool
  | none, _ => true
  | some (.cond c), parentDepth => evaluateConditionRel rm node c parentDepth
  | some (.logical op l r), parentDepth =>
    let leftResult := evaluateWhereExpr rm node (some l) parentDepth
    let rightResult := evaluateWhereExpr rm node (some r) parentDepth
    match op with
    | .AND => leftResult && rightResult
    | .OR => leftResult || rightResult
    | .NONE => false

/-! Lexer (`src/src/parser/lexer.cpp`).  The keyword table below is exactly
the one in `Lexer::identifyKeyword` — note it maps none of FOR, IN, GROUP,
HAVING, AS, AT, COUNT, SUM, AVG, MIN, MAX, DISTINCT or OFFSET, which
therefore lex as identifiers, and no rule produces ASTERISK.  `std::isspace`
etc. are the C-locale ASCII classifiers, matching `Char.isWhitespace`,
`Char.isDigit`, `Char.isAlpha` and `Char.isAlphanum` on the ASCII range. -/

/-- Embedding of `Lexer::identifyKeyword`: case-insensitive match against the
fixed keyword table; anything unmatched is an identifier. -/
def identifyKeyword (word : String) : TokenType :=
  let upper := String.mk (word.toList.map Char.toUpper)
  if upper = "SELECT" then .SELECT
  else if upper = "FROM" then .FROM
  else if upper = "WHERE" then .WHERE_KW
  else if upper = "AND" then .AND
  else if upper = "OR" then .OR
  else if upper = "ORDER" then .ORDER
  else if upper = "BY" then .BY
  else if upper = "LIMIT" then .LIMIT
  else if upper = "ASC" then .ASC
  else if upper = "DESC" then .DESC
  else if upper = "IS" then .IS
  else if upper = "NOT" then .NOT
  else if upper = "NULL" then .NULL_LITERAL
  else if upper = "LIKE" then .LIKE
  else if upper = "SET" then .SET
  else if upper = "SHOW" then .SHOW
  else if upper = "XSD" then .XSD
  else if upper = "DEST" then .DEST
  else if upper = "GENERATE" then .GENERATE
  else if upper = "XML" then .XML
  else if upper = "PREFIX" then .PREFIX_KW
  else if upper = "CHECK" then .CHECK
  else .IDENTIFIER

/-- One step of `Lexer::tokenize` per fuel unit: skip whitespace, read one
token, recurse.  Each iteration consumes at least one character, so fuel of
`input length + 1` never runs out; exhaustion emits the end marker early. -/
def tokenizeAux : Nat → List Char → Nat → List Token
  | 0, _, pos => [⟨.END_OF_INPUT, "", pos⟩]
  | fuel + 1, cs, pos =>
    let ws := cs.takeWhile Char.isWhitespace
    let rest := cs.dropWhile Char.isWhitespace
    let pos := pos + ws.length
    match rest with
    | [] => [⟨.END_OF_INPUT, "", pos⟩]
    | c :: cs' =>
      if c = '.' then ⟨.DOT, ".", pos⟩ :: tokenizeAux fuel cs' (pos + 1)
      else if c = '/' then ⟨.SLASH, "/", pos⟩ :: tokenizeAux fuel cs' (pos + 1)
      else if c = ',' then ⟨.COMMA, ",", pos⟩ :: tokenizeAux fuel cs' (pos + 1)
      else if c = '(' then ⟨.LPAREN, "(", pos⟩ :: tokenizeAux fuel cs' (pos + 1)
      else if c = ')' then ⟨.RPAREN, ")", pos⟩ :: tokenizeAux fuel cs' (pos + 1)
      else if c = '<' then
        match cs' with
        | '=' :: cs'' => ⟨.LESS_EQUAL, "<=", pos⟩ :: tokenizeAux fuel cs'' (pos + 2)
        | _ => ⟨.LESS_THAN, "<", pos⟩ :: tokenizeAux fuel cs' (pos + 1)
      else if c = '>' then
        match cs' with
        | '=' :: cs'' => ⟨.GREATER_EQUAL, ">=", pos⟩ :: tokenizeAux fuel cs'' (pos + 2)
        | _ => ⟨.GREATER_THAN, ">", pos⟩ :: tokenizeAux fuel cs' (pos + 1)
      else if c = '=' then ⟨.EQUALS, "=", pos⟩ :: tokenizeAux fuel cs' (pos + 1)
      else if c = '!' then
        match cs' with
        | '=' :: cs'' => ⟨.NOT_EQUALS, "!=", pos⟩ :: tokenizeAux fuel cs'' (pos + 2)
        | _ => ⟨.INVALID, "!", pos⟩ :: tokenizeAux fuel cs' (pos + 1)
      else if c = '"' ∨ c = '\'' then
        let body := cs'.takeWhile (· ≠ c)
        let after := cs'.dropWhile (· ≠ c)
        match after with
        | [] =>
          -- unterminated string: Invalid token, position at end of input
          [⟨.INVALID, String.mk body, pos⟩,
           ⟨.END_OF_INPUT, "", pos + 1 + body.length⟩]
        | _ :: cs'' =>
          ⟨.STRING_LITERAL, String.mk body, pos⟩ ::
            tokenizeAux fuel cs'' (pos + body.length + 2)
      else if c.isDigit then
        let num := (c :: cs').takeWhile (fun ch => ch.isDigit ∨ ch = '.')
        let after := (c :: cs').dropWhile (fun ch => ch.isDigit ∨ ch = '.')
        ⟨.NUMBER, String.mk num, pos⟩ :: tokenizeAux fuel after (pos + num.length)
      else if c.isAlpha ∨ c = '_' then
        let word := (c :: cs').takeWhile (fun ch => ch.isAlphanum ∨ ch = '_')
        let after := (c :: cs').dropWhile (fun ch => ch.isAlphanum ∨ ch = '_')
        ⟨identifyKeyword (String.mk word), String.mk word, pos⟩ ::
          tokenizeAux fuel after (pos + word.length)
      else ⟨.INVALID, String.mk [c], pos⟩ :: tokenizeAux fuel cs' (pos + 1)

/-- Embedding of `Lexer::tokenize`: the token stream of a query string,
always terminated by an end-of-input token. -/
def tokenize (input : String) : List Token :=
  tokenizeAux (input.length + 1) input.toList 0

/-! Parser (`src/src/parser/parser.cpp`).  The C++ parser walks an index into
the token vector; `PState` carries the same index.  Parse errors
(`ParseError`) become `Except.error`.  Loops and mutual recursion are given
explicit fuel; the top-level `parse` supplies fuel that the token count can
never exhaust (each loop iteration consumes at least one token). -/

/-- Parser state: the token vector and the current index. -/
structure PState where
  tokens : List Token
  current : Nat
deriving DecidableEq, Repr

/-- Embedding of `Parser::peek`: current token, or the end marker past the
end. -/
def peekT (st : PState) : Token :=
  st.tokens.getD st.current ⟨.END_OF_INPUT, "", 0⟩

/-- Embedding of `Parser::advance`: return the current token and bump the
index (past the end, return the end marker unchanged). -/
def advanceT (st : PState) : Token × PState :=
  if st.current < st.tokens.length then
    (st.tokens.getD st.current ⟨.END_OF_INPUT, "", 0⟩, ⟨st.tokens, st.current + 1⟩)
  else (⟨.END_OF_INPUT, "", 0⟩, st)

/-- Embedding of `Parser::check`. -/
def checkT (st : PState) (ty : TokenType) : Bool :=
  (peekT st).type = ty

/-- Embedding of `Parser::match`: consume the token when it has the expected
type, reporting whether it did. -/
def matchT (st : PState) (ty : TokenType) : Bool × PState :=
  if checkT st ty then (true, (advanceT st).2) else (false, st)

/-- Embedding of `Parser::isAtEnd`. -/
def isAtEndT (st : PState) : Bool :=
  st.tokens.length ≤ st.current ∨ (peekT st).type = .END_OF_INPUT

/-- Embedding of `Parser::expect`: consume a token of the given type or fail
with the given message. -/
def expectT (st : PState) (ty : TokenType) (msg : String) : Except String PState :=
  if checkT st ty then .ok (advanceT st).2
  else .error (msg ++ " (got: " ++ (peekT st).value ++ ")")

/-- Component loop of `Parser::parseFieldPath`: while the separator is a dot
or slash, consume it and the following identifier. -/
def parseFieldPathLoop : Nat → PState → List String → Except String (FieldPath × PState)
  | 0, _, _ => .error "out of fuel"
  | fuel + 1, st, comps =>
    if (peekT st).type = .DOT ∨ (peekT st).type = .SLASH then
      let st1 := (advanceT st).2
      if (peekT st1).type ≠ .IDENTIFIER then .error "Expected identifier after separator"
      else
        let (tok, st2) := advanceT st1
        parseFieldPathLoop fuel st2 (comps ++ [tok.value])
    else .ok ({ components := comps }, st)

/-- Embedding of `Parser::parseFieldPath`: the FILE_NAME pseudo-field, or an
identifier followed by dot/slash-separated identifiers. -/
def parseFieldPath (fuel : Nat) (st : PState) : Except String (FieldPath × PState) :=
  if (peekT st).value = "FILE_NAME" then
    .ok ({ include_filename := true }, (advanceT st).2)
  else if (peekT st).type ≠ .IDENTIFIER then .error "Expected field identifier"
  else
    let (tok, st1) := advanceT st
    parseFieldPathLoop fuel st1 [tok.value]

/-- Dotted-argument loop of the aggregate branch of
`Parser::parseSelectField`. -/
def parseAggArgLoop : Nat → PState → String → Except String (String × PState)
  | 0, _, _ => .error "out of fuel"
  | fuel + 1, st, arg =>
    if (peekT st).type = .DOT then
      let st1 := (advanceT st).2
      if (peekT st1).type ≠ .IDENTIFIER then
        .error "Expected identifier after '.' in aggregation argument"
      else
        let (tok, st2) := advanceT st1
        parseAggArgLoop fuel st2 (arg ++ "." ++ tok.value)
    else .ok (arg, st)

/-- Embedding of `Parser::parseSelectField`: an aggregation call (never
COUNT(*) — the `'*'` argument is rejected by the identifier check, and this
lexer produces no ASTERISK token) or a regular field path, each with an
optional AS alias. -/
def parseSelectField (fuel : Nat) (st : PState) : Except String (FieldPath × PState) := do
  let current := peekT st
  if current.type = .COUNT ∨ current.type = .SUM ∨ current.type = .AVG ∨
      current.type = .MIN ∨ current.type = .MAX then
    let aggFunc : AggregateFunc :=
      match current.type with
      | .COUNT => .COUNT
      | .SUM => .SUM
      | .AVG => .AVG
      | .MIN => .MIN
      | _ => .MAX
    let st1 := (advanceT st).2
    let st2 ← expectT st1 .LPAREN "Expected '(' after aggregation function"
    if (peekT st2).type ≠ .IDENTIFIER then
      .error "Expected identifier in aggregation function"
    else
      let (argTok, st3) := advanceT st2
      let (arg, st4) ← parseAggArgLoop fuel st3 argTok.value
      let st5 ← expectT st4 .RPAREN "Expected ')' after aggregation argument"
      let (asMatched, st6) := matchT st5 .AS
      if asMatched then
        if (peekT st6).type ≠ .IDENTIFIER then .error "Expected alias name after AS"
        else
          let (aliasTok, st7) := advanceT st6
          .ok ({ aggregate := aggFunc, aggregate_arg := arg, alias_name := aliasTok.value }, st7)
      else .ok ({ aggregate := aggFunc, aggregate_arg := arg }, st6)
  else
    let (field, st1) ← parseFieldPath fuel st
    let (asMatched, st2) := matchT st1 .AS
    if asMatched then
      if (peekT st2).type ≠ .IDENTIFIER then .error "Expected alias name after AS"
      else
        let (aliasTok, st3) := advanceT st2
        .ok ({ field with alias_name := aliasTok.value }, st3)
    else .ok (field, st2)

/-- Token kinds `Parser::parseFilePath` accepts inside an unquoted path. -/
def filePathTokenOk (ty : TokenType) : Bool :=
  ty = .IDENTIFIER ∨ ty = .SLASH ∨ ty = .DOT ∨ ty = .XML ∨ ty = .SET ∨
  ty = .SHOW ∨ ty = .XSD ∨ ty = .DEST ∨ ty = .GENERATE ∨ ty = .PREFIX_KW ∨
  ty = .CHECK ∨ ty = .VERBOSE ∨ ty = .ASC ∨ ty = .DESC ∨ ty = .COUNT ∨
  ty = .SUM ∨ ty = .AVG ∨ ty = .MIN ∨ ty = .MAX ∨ ty = .AS ∨ ty = .IN ∨
  ty = .AT ∨ ty = .BY

/-- Collection loop of `Parser::parseFilePath`: concatenate accepted token
texts, stopping at a statement keyword, end of input or unknown token. -/
def parseFilePathLoop : Nat → PState → String → String × PState
  | 0, st, path => (path, st)
  | fuel + 1, st, path =>
    if isAtEndT st then (path, st)
    else
      let current := peekT st
      if current.type = .WHERE_KW ∨ current.type = .ORDER ∨
          current.type = .LIMIT ∨ current.type = .FOR ∨
          current.type = .END_OF_INPUT then (path, st)
      else if filePathTokenOk current.type then
        parseFilePathLoop fuel (advanceT st).2 (path ++ current.value)
      else (path, st)

/-- Embedding of `Parser::parseFilePath`: a quoted string, or the
concatenation of path-like tokens up to the next clause keyword. -/
def parseFilePath (fuel : Nat) (st : PState) : Except String (String × PState) :=
  if (peekT st).type = .STRING_LITERAL then
    let (tok, st1) := advanceT st
    .ok (tok.value, st1)
  else
    let (path, st1) := parseFilePathLoop fuel st ""
    if path = "" then .error "Expected file or directory path after FROM"
    else .ok (path, st1)

/-- Embedding of `Parser::parseForClause`: `FOR var IN path [AT posvar]`. -/
def parseForClause (fuel : Nat) (st : PState) : Except String (ForClause × PState) := do
  let st1 ← expectT st .FOR "Expected FOR keyword"
  if (peekT st1).type ≠ .IDENTIFIER then .error "Expected variable name after FOR"
  else
    let (varTok, st2) := advanceT st1
    let st3 ← expectT st2 .IN "Expected IN keyword after variable name"
    let (path, st4) ← parseFieldPath fuel st3
    let (atMatched, st5) := matchT st4 .AT
    if atMatched then
      if (peekT st5).type ≠ .IDENTIFIER then .error "Expected position variable name after AT"
      else
        let (posTok, st6) := advanceT st5
        .ok ({ variable_name := varTok.value, path := path,
               position_var := posTok.value, has_position := true }, st6)
    else .ok ({ variable_name := varTok.value, path := path }, st5)

/-- Embedding of `Parser::parseComparisonOp`. -/
def parseComparisonOp (st : PState) : Except String (ComparisonOp × PState) :=
  match (peekT st).type with
  | .EQUALS => .ok (.EQUALS, (advanceT st).2)
  | .NOT_EQUALS => .ok (.NOT_EQUALS, (advanceT st).2)
  | .LESS_THAN => .ok (.LESS_THAN, (advanceT st).2)
  | .GREATER_THAN => .ok (.GREATER_THAN, (advanceT st).2)
  | .LESS_EQUAL => .ok (.LESS_EQUAL, (advanceT st).2)
  | .GREATER_EQUAL => .ok (.GREATER_EQUAL, (advanceT st).2)
  | _ => .error "Expected comparison operator"

/-- Embedding of `Parser::parseRegexPattern`: concatenate token texts until
the closing slash. -/
def parseRegexPatternLoop : Nat → PState → String → Except String (String × PState)
  | 0, _, _ => .error "out of fuel"
  | fuel + 1, st, pat =>
    if ¬ isAtEndT st ∧ (peekT st).type ≠ .SLASH then
      let (tok, st1) := advanceT st
      parseRegexPatternLoop fuel st1 (pat ++ tok.value)
    else do
      let st1 ← expectT st .SLASH "Expected '/' to close regex pattern"
      .ok (pat, st1)

/-- Embedding of `Parser::parseWhereCondition`: a field path followed by
IS [NOT] NULL, [IS NOT] LIKE /regex/, or a comparison operator and a value
(numbers are flagged numeric). -/
def parseWhereCondition (fuel : Nat) (st : PState) : Except String (WhereExpr × PState) := do
  let (field, st1) ← parseFieldPath fuel st
  if (peekT st1).type = .IS then
    let st2 := (advanceT st1).2
    if (peekT st2).type = .NOT then
      let st3 := (advanceT st2).2
      if (peekT st3).type = .NULL_LITERAL then
        .ok (.cond { field := field, op := .IS_NOT_NULL }, (advanceT st3).2)
      else if (peekT st3).type = .LIKE then
        let st4 := (advanceT st3).2
        let st5 ← expectT st4 .SLASH "Expected '/' to start regex pattern"
        let (pat, st6) ← parseRegexPatternLoop fuel st5 ""
        .ok (.cond { field := field, op := .NOT_LIKE, value := pat }, st6)
      else .error "Expected NULL or LIKE after IS NOT"
    else if (peekT st2).type = .NULL_LITERAL then
      .ok (.cond { field := field, op := .IS_NULL }, (advanceT st2).2)
    else .error "Expected NULL or NOT after IS"
  else if (peekT st1).type = .LIKE then
    let st2 := (advanceT st1).2
    let st3 ← expectT st2 .SLASH "Expected '/' to start regex pattern"
    let (pat, st4) ← parseRegexPatternLoop fuel st3 ""
    .ok (.cond { field := field, op := .LIKE, value := pat }, st4)
  else
    let (op, st2) ← parseComparisonOp st1
    let valueToken := peekT st2
    if valueToken.type = .NUMBER then
      .ok (.cond { field := field, op := op, value := valueToken.value,
                   is_numeric := true }, (advanceT st2).2)
    else if valueToken.type = .STRING_LITERAL ∨ valueToken.type = .IDENTIFIER then
      .ok (.cond { field := field, op := op, value := valueToken.value }, (advanceT st2).2)
    else .error "Expected value in WHERE clause"

mutual
/-- Embedding of `Parser::parseWhereOr`: left-associative OR chain over AND
chains (lowest precedence level). -/
def parseWhereOr : Nat → PState → Except String (WhereExpr × PState)
  | 0, _ => .error "out of fuel"
  | fuel + 1, st => do
    let (left, st1) ← parseWhereAnd fuel st
    parseWhereOrLoop fuel left st1

/-- OR continuation loop of `Parser::parseWhereOr`. -/
def parseWhereOrLoop : Nat → WhereExpr → PState → Except String (WhereExpr × PState)
  | 0, _, _ => .error "out of fuel"
  | fuel + 1, left, st =>
    let (orMatched, st1) := matchT st .OR
    if orMatched then do
      let (right, st2) ← parseWhereAnd fuel st1
      parseWhereOrLoop fuel (.logical .OR left right) st2
    else .ok (left, st)

/-- Embedding of `Parser::parseWhereAnd`: left-associative AND chain over
primaries (binds tighter than OR). -/
def parseWhereAnd : Nat → PState → Except String (WhereExpr × PState)
  | 0, _ => .error "out of fuel"
  | fuel + 1, st => do
    let (left, st1) ← parseWherePrimary fuel st
    parseWhereAndLoop fuel left st1

/-- AND continuation loop of `Parser::parseWhereAnd`. -/
def parseWhereAndLoop : Nat → WhereExpr → PState → Except String (WhereExpr × PState)
  | 0, _, _ => .error "out of fuel"
  | fuel + 1, left, st =>
    let (andMatched, st1) := matchT st .AND
    if andMatched then do
      let (right, st2) ← parseWherePrimary fuel st1
      parseWhereAndLoop fuel (.logical .AND left right) st2
    else .ok (left, st)

/-- Embedding of `Parser::parseWherePrimary`: a parenthesized OR expression,
or a simple condition. -/
def parseWherePrimary : Nat → PState → Except String (WhereExpr × PState)
  | 0, _ => .error "out of fuel"
  | fuel + 1, st =>
    let (lparenMatched, st1) := matchT st .LPAREN
    if lparenMatched then do
      let (expr, st2) ← parseWhereOr fuel st1
      let st3 ← expectT st2 .RPAREN "Expected closing parenthesis"
      .ok (expr, st3)
    else parseWhereCondition fuel st
end

/-- Embedding of `Parser::parseWhereClause` / `parseWhereExpression`: entry
point of the WHERE-expression grammar. -/
def parseWhereClause (fuel : Nat) (st : PState) : Except String (WhereExpr × PState) :=
  parseWhereOr fuel st

/-- Model of `std::stoi` as applied to NUMBER token texts (which always start
with a digit): the value of the leading digit run. -/
def stoiModel (s : String) : Int :=
  (digitsVal (s.toList.takeWhile Char.isDigit) : Int)

/-- Comma loop of `Parser::parseOrderByClause`.  The C++ code stores only the
field name and skips an optional ASC/DESC token pair ("Skip optional
ASC/DESC for now (default is ASC)"), so every entry carries direction ASC. -/
def parseOrderByLoop : Nat → PState → Query → Except String (Query × PState)
  | 0, _, _ => .error "out of fuel"
  | fuel + 1, st, q =>
    let (commaMatched, st1) := matchT st .COMMA
    if commaMatched then
      if (peekT st1).type ≠ .IDENTIFIER then
        .error "Expected field name after comma in ORDER BY"
      else
        let (tok, st2) := advanceT st1
        let q1 := { q with order_by_fields := q.order_by_fields ++ [{ field_name := tok.value }] }
        let (ascMatched, st3) := matchT st2 .ASC
        let st4 := if ascMatched then st3 else (matchT st3 .DESC).2
        parseOrderByLoop fuel st4 q1
    else .ok (q, st)

/-- Embedding of `Parser::parseOrderByClause`: ORDER BY followed by a
comma-separated identifier list; the optional ASC/DESC after each field is
consumed but not recorded (the stored direction stays at its ASC default). -/
def parseOrderByClause (fuel : Nat) (st : PState) (q : Query) :
    Except String (Query × PState) := do
  let st1 ← expectT st .ORDER "Expected ORDER keyword"
  let st2 ← expectT st1 .BY "Expected BY keyword after ORDER"
  if (peekT st2).type ≠ .IDENTIFIER then .error "Expected field name after ORDER BY"
  else
    let (tok, st3) := advanceT st2
    let q1 := { q with order_by_fields := q.order_by_fields ++ [{ field_name := tok.value }] }
    let (ascMatched, st4) := matchT st3 .ASC
    let st5 := if ascMatched then st4 else (matchT st4 .DESC).2
    parseOrderByLoop fuel st5 q1

/-- Dotted-name loop shared by the GROUP BY field parser. -/
def parseDottedNameLoop : Nat → PState → String → Except String (String × PState)
  | 0, _, _ => .error "out of fuel"
  | fuel + 1, st, nameAcc =>
    if (peekT st).type = .DOT then
      let st1 := (advanceT st).2
      if (peekT st1).type ≠ .IDENTIFIER then
        .error "Expected identifier after '.' in GROUP BY field"
      else
        let (tok, st2) := advanceT st1
        parseDottedNameLoop fuel st2 (nameAcc ++ "." ++ tok.value)
    else .ok (nameAcc, st)

/-- Comma loop of `Parser::parseGroupByClause`. -/
def parseGroupByLoop : Nat → PState → Query → Except String (Query × PState)
  | 0, _, _ => .error "out of fuel"
  | fuel + 1, st, q =>
    let (commaMatched, st1) := matchT st .COMMA
    if commaMatched then
      if (peekT st1).type ≠ .IDENTIFIER then
        .error "Expected field name after comma in GROUP BY"
      else do
        let (tok, st2) := advanceT st1
        let (fieldName, st3) ← parseDottedNameLoop fuel st2 tok.value
        parseGroupByLoop fuel st3
          { q with group_by_fields := q.group_by_fields ++ [fieldName] }
    else .ok (q, st)

/-- Embedding of `Parser::parseGroupByClause`: GROUP BY followed by a
comma-separated list of (possibly dotted) field names. -/
def parseGroupByClause (fuel : Nat) (st : PState) (q : Query) :
    Except String (Query × PState) := do
  let st1 ← expectT st .GROUP "Expected GROUP keyword"
  let st2 ← expectT st1 .BY "Expected BY keyword after GROUP"
  if (peekT st2).type ≠ .IDENTIFIER then .error "Expected field name after GROUP BY"
  else do
    let (tok, st3) := advanceT st2
    let (fieldName, st4) ← parseDottedNameLoop fuel st3 tok.value
    parseGroupByLoop fuel st4
      { q with group_by_fields := q.group_by_fields ++ [fieldName] }

/-- Embedding of `Parser::parseLimitClause`: LIMIT followed by a number
(token texts always start with a digit, so `std::stoi` succeeds and the
negativity check cannot fire). -/
def parseLimitClause (st : PState) (q : Query) : Except String (Query × PState) := do
  let st1 ← expectT st .LIMIT "Expected LIMIT keyword"
  if (peekT st1).type ≠ .NUMBER then .error "Expected number after LIMIT"
  else
    let (tok, st2) := advanceT st1
    let lim := stoiModel tok.value
    if lim < 0 then .error "LIMIT value must be non-negative"
    else .ok ({ q with limit := lim }, st2)

/-- Variable-reference marking applied to one field path (the body of the
post-parse pass in `Parser::parse`). -/
def markFieldVariableRef (q : Query) (field : FieldPath) : FieldPath :=
  match field.components with
  | [] => field
  | c :: _ =>
    if q.isForVariable c then
      { field with is_variable_ref := true, variable_name := c }
    else if q.isPositionVariable c then
      { field with is_variable_ref := true, variable_name := c }
    else field

/-- Embedding of `Parser::markVariableReferencesInWhere`, rebuilding the tree
(the C++ mutates it in place). -/
def markVariableReferencesInWhere (q : Query) : WhereExpr → WhereExpr
  | .cond c => .cond { c with field := markFieldVariableRef q c.field }
  | .logical op l r =>
    .logical op (markVariableReferencesInWhere q l) (markVariableReferencesInWhere q r)

/-- SELECT-field comma loop of `Parser::parse`. -/
def parseSelectFieldList : Nat → PState → List FieldPath →
    Except String (List FieldPath × PState)
  | 0, _, _ => .error "out of fuel"
  | fuel + 1, st, fields =>
    let (commaMatched, st1) := matchT st .COMMA
    if commaMatched then do
      let (field, st2) ← parseSelectField fuel st1
      parseSelectFieldList fuel st2 (fields ++ [field])
    else .ok (fields, st)

/-- FOR-clause loop of `Parser::parse`. -/
def parseForClauseList : Nat → PState → List ForClause →
    Except String (List ForClause × PState)
  | 0, _, _ => .error "out of fuel"
  | fuel + 1, st, fcs =>
    if checkT st .FOR then do
      let (fc, st1) ← parseForClause fuel st
      parseForClauseList fuel st1 (fcs ++ [fc])
    else .ok (fcs, st)

/-- Embedding of `Parser::parse`: SELECT field list, FROM path, FOR clauses,
optional WHERE / GROUP BY / ORDER BY / LIMIT (there is no OFFSET clause in
this parser), trailing-token check, then the variable-reference post-pass.
Fuel is proportional to the token count and can never be exhausted, since
every loop iteration consumes at least one token. -/
def parse (tokens : List Token) : Except String Query := do
  let st : PState := ⟨tokens, 0⟩
  let F := 4 * (tokens.length + 4)
  let st ← expectT st .SELECT "Expected SELECT keyword"
  let (field0, st) ← parseSelectField F st
  let (fields, st) ← parseSelectFieldList F st [field0]
  let hasAggs := fields.any (fun f => f.aggregate ≠ .NONE)
  let st ← expectT st .FROM "Expected FROM keyword"
  let (fromPath, st) ← parseFilePath F st
  let (forClauses, st) ← parseForClauseList F st []
  let (whereMatched, st) := matchT st .WHERE_KW
  let (whereE, st) ←
    if whereMatched then do
      let (e, st') ← parseWhereClause F st
      pure (some e, st')
    else pure ((none : Option WhereExpr), st)
  let q0 : Query :=
    { select_fields := fields, from_path := fromPath, for_clauses := forClauses,
      whereClause := whereE, has_aggregates := hasAggs }
  let (q1, st) ←
    if checkT st .GROUP then parseGroupByClause F st q0
    else pure (q0, st)
  let (q2, st) ←
    if checkT st .ORDER then parseOrderByClause F st q1
    else pure (q1, st)
  let (q3, st) ←
    if checkT st .LIMIT then parseLimitClause st q2
    else pure (q2, st)
  if ¬ isAtEndT st ∧ (peekT st).type ≠ .END_OF_INPUT then
    .error ("Unexpected tokens after query - token: " ++ (peekT st).value)
  else if q3.for_clauses.isEmpty then
    pure q3
  else
    pure { q3 with
      select_fields := q3.select_fields.map (markFieldVariableRef q3),
      whereClause := q3.whereClause.map (markVariableReferencesInWhere q3) }

/-- Lex and parse a query string (`Lexer::tokenize` then `Parser::parse`). -/
def parseQuery (input : String) : Except String Query :=
  parse (tokenize input)

/-! DSN schema-shortcut rewriter
(`src/ariane-xml-c-kernel/src/dsn/dsn_query_rewriter.cpp`).  The schema is
consumed only through `DsnSchema::findByShortId`, modelled as a function from
short codes to candidate lists (the list order is the schema's iteration
order).  The ambiguity warning is I/O and has no result-relevant effect. -/

/-- A schema attribute (`struct DsnAttribute`, the members the rewriter
reads). -/
structure DsnAttribute where
  full_name : String := ""
  short_id : String := ""
  description : String := ""
deriving DecidableEq, Repr

/-- Embedding of `DsnQueryRewriter::isShortcutPattern`: the regex
`^\d{2,}_\d{3,}$` — two or more digits, an underscore, three or more digits,
nothing else.  Digit runs cannot overlap the underscore, so maximal-run
splitting is equivalent to the regex. -/
def isShortcutPattern (s : String) : Bool :=
  let cs := s.toList
  let d1 := cs.takeWhile Char.isDigit
  let r := cs.dropWhile Char.isDigit
  match r with
  | '_' :: r2 =>
    let d2 := r2.takeWhile Char.isDigit
    let r3 := r2.dropWhile Char.isDigit
    2 ≤ d1.length ∧ 3 ≤ d2.length ∧ r3.isEmpty
  | _ => false

/-- Whether one string starts with another (`full_name.find(prev) == 0` in
the rewriter), computed on character lists so that it reduces in the
kernel. -/
def strStartsWith (s pre : String) : Bool :=
  pre.toList.isPrefixOf s.toList

/-- Embedding of `DsnQueryRewriter::expandComponent`: leave non-shortcut
components and components with no schema candidate unchanged; substitute the
full name of a unique candidate; with several candidates, take the first one
whose full name starts with the previous component (when there is one), else
fall back to the first candidate (after warning). -/
def expandComponent (schema : String → List DsnAttribute)
    (component : String) (previousComponent : String := "") : String :=
  if ¬ isShortcutPattern component then component
  else
    match schema component with
    | [] => component
    | [a] => a.full_name
    | a₀ :: a₁ :: rest =>
      if previousComponent ≠ "" then
        match (a₀ :: a₁ :: rest).find?
            (fun attr => strStartsWith attr.full_name previousComponent) with
        | some attr => attr.full_name
        | none => a₀.full_name
      else a₀.full_name

/-- Component fold of `DsnQueryRewriter::expandFieldPath`: each component is
expanded with the previous *expanded* component as hierarchy hint. -/
def expandComponentsChain (schema : String → List DsnAttribute) :
    String → List String → List String
  | _, [] => []
  | prev, c :: rest =>
    let e := expandComponent schema c prev
    e :: expandComponentsChain schema e rest

/-- Embedding of `DsnQueryRewriter::expandFieldPath`. -/
def expandFieldPath (schema : String → List DsnAttribute) (field : FieldPath) : FieldPath :=
  let expanded := { field with components := expandComponentsChain schema "" field.components }
  if field.is_attribute ∧ isShortcutPattern field.attribute_name then
    { expanded with attribute_name := expandComponent schema field.attribute_name }
  else expanded

/-- Embedding of `DsnQueryRewriter::rewriteWhereExpr`. -/
def rewriteWhereExpr (schema : String → List DsnAttribute) : WhereExpr → WhereExpr
  | .cond c => .cond { c with field := expandFieldPath schema c.field }
  | .logical op l r =>
    .logical op (rewriteWhereExpr schema l) (rewriteWhereExpr schema r)

/-- Embedding of `DsnQueryRewriter::rewrite`: a new query with SELECT,
WHERE and HAVING field paths expanded and everything else copied. -/
def rewrite (schema : String → List DsnAttribute) (q : Query) : Query :=
  { q with
    select_fields := q.select_fields.map (expandFieldPath schema),
    whereClause := q.whereClause.map (rewriteWhereExpr schema),
    having := q.having.map (rewriteWhereExpr schema) }

/-! Query executor (`src/src/executor/query_executor.cpp`).  Scope of the
model: the aggregate computation, the ORDER BY / DISTINCT / OFFSET / LIMIT
post-processing, the broadcast (no-WHERE) row formation of
`QueryExecutor::processFile`, the per-file failure handling and the
multithreaded work partition.  The WHERE-filtered and FOR-clause paths of
`processFile` are outside every claim and are not modelled; theorems about
`executeModel` are stated for queries without FOR clauses or WHERE.  A file
list entry is `(filename, load result)`: `none` models a file whose load (or
processing) threw — the exception is caught at the file boundary and the
file contributes zero rows. -/

/-- Aggregation target field name in `QueryExecutor::computeAggregate`. -/
def aggTargetField (field : FieldPath) : String :=
  if field.is_attribute then "@" ++ field.attribute_name
  else field.components.getLastD ""

/-- The values a row set contributes to an aggregate: per row, the first
(field, value) pair whose field matches the target and whose value is
non-empty. -/
def contributingValues (target : String) (allResults : List ResultRow) : List String :=
  allResults.filterMap (fun row =>
    (row.find? (fun p => p.1 = target ∧ p.2 ≠ "")).map (·.2))

/-- The numeric arm of the `computeAggregate` switch, a function of the
successfully parsed values only (SUM and AVG of zero parsed values yield "0",
MIN and MAX yield ""). -/
def aggNumericResult (agg : AggregateFunc) (numericValues : List ℚ) : String :=
  match agg with
  | .SUM =>
    match numericValues with
    | [] => "0"
    | _ => fmtDouble (numericValues.foldl (· + ·) 0)
  | .AVG =>
    match numericValues with
    | [] => "0"
    | _ => fmtDouble ((numericValues.foldl (· + ·) 0) / (numericValues.length : ℚ))
  | .MIN =>
    match numericValues with
    | [] => ""
    | q :: qs => fmtDouble (qs.foldl min q)
  | .MAX =>
    match numericValues with
    | [] => ""
    | q :: qs => fmtDouble (qs.foldl max q)
  | _ => ""

/-- Embedding of `QueryExecutor::computeAggregate`: COUNT(*) counts rows;
COUNT counts every contributing value (parse failures included); SUM, AVG,
MIN and MAX parse each value as a float and silently skip failures
(`aggNumericResult` is the switch's numeric arm). -/
def computeAggregate (field : FieldPath) (allResults : List ResultRow) : String :=
  if field.is_count_star then toString allResults.length
  else
    match field.aggregate with
    | .COUNT => toString (contributingValues (aggTargetField field) allResults).length
    | .NONE => ""
    | agg =>
      aggNumericResult agg
        ((contributingValues (aggTargetField field) allResults).filterMap parseFloat)

/-- Result-column label built for an aggregate field in
`QueryExecutor::execute` (lines 104–128): "COUNT(*)" for the star form, else
the function name applied to the dot-joined path (or @attribute). -/
def aggFieldLabel (field : FieldPath) : String :=
  if field.is_count_star then "COUNT(*)"
  else
    let path :=
      if field.is_attribute then "@" ++ field.attribute_name
      else String.intercalate "." field.components
    match field.aggregate with
    | .COUNT => "COUNT(" ++ path ++ ")"
    | .SUM => "SUM(" ++ path ++ ")"
    | .AVG => "AVG(" ++ path ++ ")"
    | .MIN => "MIN(" ++ path ++ ")"
    | .MAX => "MAX(" ++ path ++ ")"
    | .NONE => ""

/-- Value of a named field in a row for the ORDER BY comparator: first match
wins, a missing field reads as "". -/
def rowValue (fieldName : String) (row : ResultRow) : String :=
  (((row.find? (fun p => p.1 = fieldName)).map (·.2)).getD "")

/-- Embedding of the `std::sort` comparator in `QueryExecutor::execute`
(lines 153–183): numeric comparison when both values parse as floats, else
lexical string comparison, direction per the stored `OrderByField`. -/
def rowLt (ob : OrderByField) (a b : ResultRow) : Bool :=
  let descending := ob.direction = .DESC
  let aValue := rowValue ob.field_name a
  let bValue := rowValue ob.field_name b
  match parseFloat aValue, parseFloat bValue with
  | some aNum, some bNum =>
    if descending then decide (bNum < aNum) else decide (aNum < bNum)
  | _, _ =>
    if descending then strLt bValue aValue else strLt aValue bValue

/-- Insertion of an element into a list sorted for a total Bool preorder. -/
def orderedInsert (le : α → α → Bool) (x : α) : List α → List α
  | [] => [x]
  | y :: ys => if le x y then x :: y :: ys else y :: orderedInsert le x ys

/-- Sorting by repeated ordered insertion. -/
def insertionSortBy (le : α → α → Bool) : List α → List α
  | [] => []
  | x :: xs => orderedInsert le x (insertionSortBy le xs)

/-- Embedding of the ORDER BY step of `QueryExecutor::execute`: sort by the
first ordering field only ("For now, support first field only").  `std::sort`
with the strict comparator `rowLt` is modelled as an insertion sort on its
complement: both produce a permutation sorted for the same strict weak
order, differing at most in the relative order of tied rows (which
`std::sort` leaves unspecified). -/
def applyOrderBy (obs : List OrderByField) (rows : List ResultRow) : List ResultRow :=
  match obs with
  | [] => rows
  | ob :: _ => insertionSortBy (fun a b => ! rowLt ob b a) rows

/-- Serialized row key used by DISTINCT ("field:value|" per pair). -/
def rowKey (row : ResultRow) : String :=
  row.foldl (fun acc p => acc ++ p.1 ++ ":" ++ p.2 ++ "|") ""

/-- Deduplication loop of the DISTINCT step: keep the first occurrence of
each serialized row. -/
def applyDistinctAux : List String → List ResultRow → List ResultRow
  | _, [] => []
  | seen, r :: rs =>
    let k := rowKey r
    if k ∈ seen then applyDistinctAux seen rs
    else r :: applyDistinctAux (k :: seen) rs

/-- Embedding of the DISTINCT step of `QueryExecutor::execute`. -/
def applyDistinctIf (dist : Bool) (rows : List ResultRow) : List ResultRow :=
  if dist then applyDistinctAux [] rows else rows

/-- Embedding of the OFFSET step of `QueryExecutor::execute` (lines
209–215): a non-negative offset below the result size erases that prefix, a
non-negative offset at or past the size clears the results, a negative
(absent) offset leaves them unchanged. -/
def applyOffset (offset : Int) (rows : List ResultRow) : List ResultRow :=
  if 0 ≤ offset ∧ offset.toNat < rows.length then rows.drop offset.toNat
  else if 0 ≤ offset then []
  else rows

/-- Embedding of the LIMIT step of `QueryExecutor::execute` (lines 217–220),
applied after OFFSET: a non-negative limit below the current size truncates
to it. -/
def applyLimit (limit : Int) (rows : List ResultRow) : List ResultRow :=
  if 0 ≤ limit ∧ limit.toNat < rows.length then rows.take limit.toNat
  else rows

/-- Display name of a SELECT field in a result row (`processFile`): the
FILE_NAME pseudo-field, an @attribute, or the last path component. -/
def fieldResultName (field : FieldPath) : String :=
  if field.include_filename then "FILE_NAME"
  else if field.is_attribute then "@" ++ field.attribute_name
  else field.components.getLastD ""

/-- The maximum cardinality over the per-field extraction results (the
`maxResults` scan of the broadcast loop). -/
def maxExtracted (doc : XDoc) (filename : String) (selectFields : List FieldPath) : Nat :=
  (selectFields.map (extractValues doc filename)).foldl (fun m fr => max m fr.length) 0

/-- Row `i` of the broadcast join: one cell per SELECT field, the field's
i-th extracted value when it has one, the empty string pad otherwise. -/
def broadcastRow (doc : XDoc) (filename : String) (selectFields : List FieldPath)
    (i : Nat) : ResultRow :=
  (selectFields.zip (selectFields.map (extractValues doc filename))).map (fun pr =>
    (fieldResultName pr.1, if h : i < pr.2.length then (pr.2.get ⟨i, h⟩).2 else ""))

/-- Embedding of the no-WHERE branch of `QueryExecutor::processFile`
(broadcast row formation): extract every value per SELECT field
independently, then form one row per index up to the maximum cardinality,
padding shorter field lists with the empty string. -/
def processFileNoWhere (doc : XDoc) (filename : String)
    (selectFields : List FieldPath) : List ResultRow :=
  (List.range (maxExtracted doc filename selectFields)).map
    (broadcastRow doc filename selectFields)

/-- The per-file loop of `QueryExecutor::execute`: each file's rows are
appended in file order; a file whose load or processing throws is caught at
the file boundary and contributes zero rows. -/
def mergeFilesWith (pf : String → XDoc → List ResultRow)
    (files : List (String × Option XDoc)) : List ResultRow :=
  files.flatMap (fun f =>
    match f.2 with
    | none => []
    | some doc => pf f.1 doc)

/-- Whether any SELECT field aggregates (the `hasAggregates` scan in
`QueryExecutor::execute`). -/
def hasAggregatesIn (fields : List FieldPath) : Bool :=
  fields.any (fun f => f.aggregate ≠ .NONE)

/-- Embedding of `QueryExecutor::execute` for queries without FOR clauses or
WHERE.  Aggregate branch: non-star aggregate fields are re-extracted as plain
fields (plain SELECT fields are dropped); when only COUNT(*) remains, each
successfully loaded file contributes one empty row; the single result row is
returned without any ORDER BY / DISTINCT / OFFSET / LIMIT post-processing.
Non-aggregate branch: merge per-file broadcast rows, then ORDER BY, DISTINCT,
OFFSET and LIMIT in that order. -/
def executeModel (q : Query) (files : List (String × Option XDoc)) : List ResultRow :=
  if hasAggregatesIn q.select_fields then
    let tempFields :=
      (q.select_fields.filter (fun f => f.aggregate ≠ .NONE ∧ ¬ f.is_count_star)).map
        (fun f => { f with aggregate := .NONE })
    let allResults :=
      if tempFields.isEmpty then
        files.filterMap (fun f => f.2.map (fun _ => ([] : ResultRow)))
      else mergeFilesWith (fun fn doc => processFileNoWhere doc fn tempFields) files
    [q.select_fields.map (fun f => (aggFieldLabel f, computeAggregate f allResults))]
  else
    applyLimit q.limit (applyOffset q.offset (applyDistinctIf q.distinct
      (applyOrderBy q.order_by_fields
        (mergeFilesWith (fun fn doc => processFileNoWhere doc fn q.select_fields) files))))

/-! Multithreaded scheduler (`QueryExecutor::executeMultithreaded`).  Worker
`t` of `tc` processes files `t, t + tc, t + 2·tc, …` in order; each completed
per-file batch is appended whole to the shared result list under one mutex,
so the shared list is some interleaving of the per-thread batch sequences. -/

/-- Every `tc`-th element of a list, starting with its head (one worker's
slice of the strided partition). -/
def everyNth (tc : Nat) : List α → List α
  | [] => []
  | x :: xs => x :: everyNth tc (xs.drop (tc - 1))
termination_by l => l.length
decreasing_by
  simp only [List.length_drop, List.length_cons]
  omega

/-- The strided partition of `executeMultithreaded`: worker `t` gets files
`t, t + tc, t + 2·tc, …`. -/
def strideFiles (tc : Nat) (files : List α) : List (List α) :=
  (List.range tc).map (fun t => everyNth tc (files.drop t))

/-- The per-thread batch sequences: worker `t` produces the per-file batches
of its slice, in slice order. -/
def perThreadBatches (pf : α → List ResultRow) (tc : Nat) (files : List α) :
    List (List (List ResultRow)) :=
  (strideFiles tc files).map (fun tf => tf.map pf)

/-- An interleaving of several sequences: the merged list takes whole
elements from the heads of the sequences, in some schedule-dependent order.
This models the order in which worker threads acquire the results mutex. -/
inductive IsInterleaving : List (List α) → List α → Prop where
  | nil (ls : List (List α)) (h : ∀ l ∈ ls, l = []) : IsInterleaving ls []
  | step (ls₁ : List (List α)) (x : α) (l : List α) (ls₂ : List (List α))
      (out : List α) (h : IsInterleaving (ls₁ ++ l :: ls₂) out) :
      IsInterleaving (ls₁ ++ (x :: l) :: ls₂) (x :: out)

/-- Embedding of `QueryExecutor::shouldUseThreading`: threading is engaged at
five or more files. -/
def shouldUseThreading (fileCount : Nat) : Bool :=
  5 ≤ fileCount

/-! Concrete inputs used by theorems, witnesses and counterexamples. -/

/-- A document with the nested element chain root/dept/employee/name. -/
def exDoc : XDoc :=
  [.elem "root" [.elem "dept" [.elem "employee" [.elem "name" [.text "Alice"]]]]]

/-- The root element of `exDoc`. -/
def exRoot : XNode :=
  .elem "root" [.elem "dept" [.elem "employee" [.elem "name" [.text "Alice"]]]]

/-- A schema lookup with one ambiguous short code, `30_001`, which names an
attribute under bloc `S10_G00_30` and one under bloc `S21_G00_30` (in that
iteration order). -/
def exSchema : String → List DsnAttribute := fun code =>
  if code = "30_001" then
    [{ full_name := "S10_G00_30_001", short_id := "30_001" },
     { full_name := "S21_G00_30_001", short_id := "30_001" }]
  else []

/-- The query `SELECT COUNT(*)` with no WHERE clause (the field shape the
executor's pure COUNT(*) path matches on; this parser snapshot cannot lex
`*`, so the field is built directly). -/
def countStarQuery : Query :=
  { select_fields := [{ aggregate := .COUNT, is_count_star := true }],
    has_aggregates := true }

/-- A SUM(price) aggregate field. -/
def sumPriceField : FieldPath :=
  { components := ["price"], aggregate := .SUM }

/-- A COUNT(price) aggregate field. -/
def countPriceField : FieldPath :=
  { components := ["price"], aggregate := .COUNT }

/-- Three one-column rows with price values "10", "abc", "20". -/
def priceRows : List ResultRow :=
  [[("price", "10")], [("price", "abc")], [("price", "20")]]

/-! Helper lemmas. -/

/-- The COUNT(*) file loop produces exactly one empty row per successfully
loaded file. -/
theorem length_countStarRows (files : List (String × Option XDoc)) :
    (files.filterMap (fun f => f.2.map (fun _ => ([] : ResultRow)))).length
      = (files.filterMap (fun f => f.2)).length := by
  induction files with
  | nil => rfl
  | cons f fs ih =>
    cases h : f.2 <;> simp [List.filterMap_cons, h, ih]

/-- A merged interleaving contains exactly the elements of the interleaved
sequences. -/
theorem interleaving_perm {α : Type} {ls : List (List α)} {out : List α}
    (h : IsInterleaving ls out) : out.Perm ls.flatten := by
  induction h with
  | nil ls h => simp [List.flatten_eq_nil_iff.mpr h]
  | step ls₁ x l ls₂ out _ ih =>
    have h1 : (x :: out).Perm (x :: (ls₁.flatten ++ (l ++ ls₂.flatten))) := by
      refine List.Perm.cons x ?_
      simpa [List.flatten_append] using ih
    have h2 : (ls₁ ++ (x :: l) :: ls₂).flatten
        = ls₁.flatten ++ (x :: (l ++ ls₂.flatten)) := by
      simp [List.flatten_append]
    rw [h2]
    exact h1.trans List.perm_middle.symm

/-- The strided partition of `executeMultithreaded` covers every file exactly
once: its concatenation is a permutation of the file list. -/
theorem strideFiles_flatten_perm {α : Type} (k : Nat) :
    ∀ files : List α, (strideFiles (k + 1) files).flatten.Perm files := by
  intro files
  induction files with
  | nil =>
    simp [strideFiles, everyNth, List.flatten_eq_nil_iff]
  | cons f fs ih =>
    have hhead : everyNth (k + 1) (f :: fs) = f :: everyNth (k + 1) (fs.drop k) := by
      rw [everyNth]
      simp
    have hmap : strideFiles (k + 1) (f :: fs)
        = everyNth (k + 1) (f :: fs)
          :: (List.range k).map (fun t => everyNth (k + 1) (fs.drop t)) := by
      unfold strideFiles
      rw [List.range_succ_eq_map, List.map_cons, List.map_map]
      congr 1
    have hih : ((((List.range k).map (fun t => everyNth (k + 1) (fs.drop t))).flatten)
          ++ everyNth (k + 1) (fs.drop k)).Perm fs := by
      have h0 := ih
      unfold strideFiles at h0
      rw [List.range_succ, List.map_append, List.flatten_append] at h0
      simpa using h0
    rw [hmap, List.flatten_cons, hhead, List.cons_append]
    exact ((List.perm_append_comm.trans hih).cons f)

/-- C6: for every final result set and every query with limit L ≥ 0 and
offset O ≥ 0, the OFFSET/LIMIT post-processing of `QueryExecutor::execute`
returns exactly max(0, min(L, N−O)) rows, and those rows are the slice
[O, O+L) of the full result set; OFFSET removes a clamped prefix and LIMIT
truncates after OFFSET, both applied after DISTINCT and ORDER BY in the
non-aggregate pipeline. -/
theorem C6_offset_limit_slice (L O : Int) (rows : List ResultRow)
    (hL : 0 ≤ L) (hO : 0 ≤ O) :
    applyLimit L (applyOffset O rows) = (rows.drop O.toNat).take L.toNat
    ∧ (applyLimit L (applyOffset O rows)).length
        = min L.toNat (rows.length - O.toNat)
    ∧ ((applyLimit L (applyOffset O rows)).length : Int)
        = max 0 (min L ((rows.length : Int) - O))
    ∧ (∀ (q : Query) (files : List (String × Option XDoc)),
        hasAggregatesIn q.select_fields = false →
        executeModel q files
          = applyLimit q.limit (applyOffset q.offset (applyDistinctIf q.distinct
              (applyOrderBy q.order_by_fields
                (mergeFilesWith
                  (fun fn doc => processFileNoWhere doc fn q.select_fields)
                  files))))) := by
  have hslice : applyLimit L (applyOffset O rows) = (rows.drop O.toNat).take L.toNat := by
    by_cases h1 : O.toNat < rows.length
    · have hoff : applyOffset O rows = rows.drop O.toNat := by
        unfold applyOffset
        rw [if_pos ⟨hO, h1⟩]
      rw [hoff]
      unfold applyLimit
      by_cases h2 : L.toNat < (rows.drop O.toNat).length
      · rw [if_pos ⟨hL, h2⟩]
      · rw [if_neg (fun hc => h2 hc.2)]
        exact (List.take_of_length_le (le_of_not_lt h2)).symm
    · have hdrop : rows.drop O.toNat = [] :=
        List.drop_eq_nil_iff.mpr (le_of_not_lt h1)
      have hoff : applyOffset O rows = [] := by
        unfold applyOffset
        rw [if_neg (fun hc => h1 hc.2), if_pos hO]
      rw [hoff, hdrop]
      unfold applyLimit
      simp
  have hlen : (applyLimit L (applyOffset O rows)).length
      = min L.toNat (rows.length - O.toNat) := by
    rw [hslice]
    simp [List.length_take, List.length_drop]
  refine ⟨hslice, hlen, ?_, ?_⟩
  · omega
  · intro q files hq
    unfold executeModel
    simp [hq]

/-- Witness for C6: LIMIT 2 OFFSET 1 on a four-row result returns rows 2 and
3 — the theorem applied at a concrete input. -/
theorem C6_offset_limit_slice_witness :
    applyLimit 2 (applyOffset 1 [[("a", "1")], [("a", "2")], [("a", "3")], [("a", "4")]])
      = [[("a", "2")], [("a", "3")]] :=
  ((C6_offset_limit_slice 2 1
      [[("a", "1")], [("a", "2")], [("a", "3")], [("a", "4")]]
      (by decide) (by decide)).1).trans (by decide)

/-- C5: executing `SELECT COUNT(*)` with no WHERE clause returns exactly one
result row whose value is the number of files that loaded successfully — "5"
when all five files parse, "4" when one fails to load; a per-file load
failure is caught at the file boundary, contributes zero rows, and leaves
every other file's rows in place. -/
theorem C5_count_star_counts_loaded_files :
    (∀ files : List (String × Option XDoc),
      executeModel countStarQuery files
        = [[("COUNT(*)", toString (files.filterMap (fun f => f.2)).length)]])
    ∧ (∀ (pf : String → XDoc → List ResultRow)
        (files₁ files₂ : List (String × Option XDoc)) (fn : String),
        mergeFilesWith pf (files₁ ++ (fn, none) :: files₂)
          = mergeFilesWith pf files₁ ++ mergeFilesWith pf files₂)
    ∧ executeModel countStarQuery
        [("f1", some exDoc), ("f2", some exDoc), ("f3", some exDoc),
         ("f4", some exDoc), ("f5", some exDoc)]
        = [[("COUNT(*)", "5")]]
    ∧ executeModel countStarQuery
        [("f1", some exDoc), ("f2", some exDoc), ("f3", none),
         ("f4", some exDoc), ("f5", some exDoc)]
        = [[("COUNT(*)", "4")]] := by
  refine ⟨?_, ?_, by rfl, by rfl⟩
  · intro files
    unfold executeModel
    rw [if_pos (by rfl)]
    simp only [countStarQuery]
    norm_num [aggFieldLabel, computeAggregate, length_countStarRows]
  · intro pf files₁ files₂ fn
    simp [mergeFilesWith]

/-- Evaluation lemma: std::stod on "10". -/
theorem parseFloat_ten : parseFloat "10" = some 10 := by
  have h : parseFloatParts "10" = some { ip := 10 } := by decide
  rw [parseFloat, h]
  norm_num [floatPartsValue]

/-- Evaluation lemma: std::stod on "20". -/
theorem parseFloat_twenty : parseFloat "20" = some 20 := by
  have h : parseFloatParts "20" = some { ip := 20 } := by decide
  rw [parseFloat, h]
  norm_num [floatPartsValue]

/-- Evaluation lemma: std::stod throws on "abc". -/
theorem parseFloat_abc : parseFloat "abc" = none := by decide

/-- Evaluation lemma: std::stod on "30.000000". -/
theorem parseFloat_thirty : parseFloat "30.000000" = some 30 := by
  have h : parseFloatParts "30.000000" = some { ip := 30, fpLen := 6 } := by decide
  rw [parseFloat, h]
  norm_num [floatPartsValue]

/-- Evaluation lemma: std::to_string(30.0). -/
theorem fmtDouble_thirty : fmtDouble 30 = "30.000000" := by
  norm_num [fmtDouble, zeroPad]
  decide

/-- Evaluation lemma: SUM over the price rows ["10","abc","20"]. -/
theorem computeAggregate_sum_thirty :
    computeAggregate sumPriceField priceRows = "30.000000" := by
  have hv : contributingValues (aggTargetField sumPriceField) priceRows
      = ["10", "abc", "20"] := by decide
  have hn : (["10", "abc", "20"] : List String).filterMap parseFloat = [10, 20] := by
    simp [List.filterMap_cons, parseFloat_ten, parseFloat_abc, parseFloat_twenty]
  show aggNumericResult .SUM
      ((contributingValues (aggTargetField sumPriceField) priceRows).filterMap parseFloat)
    = "30.000000"
  rw [hv, hn]
  show fmtDouble ([(10 : ℚ), 20].foldl (· + ·) 0) = "30.000000"
  have hsum : ([(10 : ℚ), 20].foldl (· + ·) 0) = 30 := by norm_num
  rw [hsum, fmtDouble_thirty]

/-- C4: in `QueryExecutor::computeAggregate`, COUNT counts every contributing
value including non-numeric ones; SUM, AVG, MIN and MAX parse values as
floats and silently skip a value that fails to parse (inserting such a value
into the row set leaves the result unchanged); AVG over zero
successfully-parsed values yields "0"; and SUM over the values
["10","abc","20"] yields 30 (formatted "30.000000" by std::to_string). -/
theorem C4_aggregate_semantics :
    (∀ (f : FieldPath) (rows : List ResultRow),
      f.is_count_star = false → f.aggregate = .COUNT →
      computeAggregate f rows
        = toString (contributingValues (aggTargetField f) rows).length)
    ∧ (∀ (f : FieldPath) (rows₁ rows₂ : List ResultRow) (v : String),
        f.is_count_star = false →
        (f.aggregate = .SUM ∨ f.aggregate = .AVG ∨
          f.aggregate = .MIN ∨ f.aggregate = .MAX) →
        v ≠ "" → parseFloat v = none →
        computeAggregate f (rows₁ ++ [(aggTargetField f, v)] :: rows₂)
          = computeAggregate f (rows₁ ++ rows₂))
    ∧ (∀ (f : FieldPath) (rows : List ResultRow),
        f.is_count_star = false → f.aggregate = .AVG →
        (contributingValues (aggTargetField f) rows).filterMap parseFloat = [] →
        computeAggregate f rows = "0")
    ∧ computeAggregate sumPriceField priceRows = "30.000000"
    ∧ parseFloat "30.000000" = some 30
    ∧ computeAggregate countPriceField priceRows = "3" := by
  have hnumeq : ∀ (t : String) (rows₁ rows₂ : List ResultRow) (v : String),
      v ≠ "" → parseFloat v = none →
      (contributingValues t (rows₁ ++ [(t, v)] :: rows₂)).filterMap parseFloat
        = (contributingValues t (rows₁ ++ rows₂)).filterMap parseFloat := by
    intro t rows₁ rows₂ v hv hpf
    have hmid : contributingValues t (rows₁ ++ [(t, v)] :: rows₂)
        = contributingValues t rows₁ ++ v :: contributingValues t rows₂ := by
      simp [contributingValues, List.filterMap_append, List.filterMap_cons,
        List.find?, hv]
    have hsplit : contributingValues t (rows₁ ++ rows₂)
        = contributingValues t rows₁ ++ contributingValues t rows₂ := by
      simp [contributingValues, List.filterMap_append]
    rw [hmid, hsplit]
    simp [List.filterMap_append, List.filterMap_cons, hpf]
  refine ⟨?_, ?_, ?_, computeAggregate_sum_thirty, parseFloat_thirty, by rfl⟩
  · intro f rows h1 h2
    unfold computeAggregate
    rw [if_neg (by simp [h1]), h2]
  · intro f rows₁ rows₂ v h1 hagg hv hpf
    unfold computeAggregate
    rw [if_neg (by simp [h1]), if_neg (by simp [h1])]
    rcases hagg with h | h | h | h <;>
      simp only [h] <;>
      rw [hnumeq (aggTargetField f) rows₁ rows₂ v hv hpf]
  · intro f rows h1 h2 hnil
    unfold computeAggregate
    rw [if_neg (by simp [h1])]
    simp only [h2, hnil]
    rfl

/-- Witness for C4: the COUNT, skip-invariance and AVG-of-zero clauses of the
theorem applied at concrete inputs. -/
theorem C4_aggregate_semantics_witness :
    computeAggregate countPriceField priceRows
      = toString (contributingValues (aggTargetField countPriceField) priceRows).length
    ∧ computeAggregate sumPriceField
        ([[("x", "1")]] ++ [(aggTargetField sumPriceField, "abc")] :: [[("price", "10")]])
      = computeAggregate sumPriceField ([[("x", "1")]] ++ [[("price", "10")]])
    ∧ computeAggregate { components := ["price"], aggregate := .AVG } [[("price", "zz")]]
      = "0" :=
  ⟨C4_aggregate_semantics.1 countPriceField priceRows (by rfl) (by rfl),
   C4_aggregate_semantics.2.1 sumPriceField [[("x", "1")]] [[("price", "10")]] "abc"
     (by rfl) (Or.inl (by rfl)) (by decide) parseFloat_abc,
   C4_aggregate_semantics.2.2.1 { components := ["price"], aggregate := .AVG }
     [[("price", "zz")]] (by rfl) (by rfl) (by decide)⟩

/-- C3: for every context node and field, `field IS NULL` evaluates to true
iff the resolved field value is empty — i.e. the field is absent or resolves
to the empty string — and `field IS NOT NULL` is its exact boolean negation,
for both condition-evaluation overloads of the navigator. -/
theorem C3_is_null_negation :
    (∀ (rm : RegexModel) (chain : List String) (node : XNode) (field : FieldPath)
       (v : String) (b : Bool) (vals : List String),
      (evaluateCondition rm chain node
          { field := field, op := .IS_NULL, value := v, is_numeric := b, values := vals }
        = true) ↔ getNodeValue chain node field = "")
    ∧ (∀ (rm : RegexModel) (chain : List String) (node : XNode) (field : FieldPath)
       (v : String) (b : Bool) (vals : List String)
       (v' : String) (b' : Bool) (vals' : List String),
      evaluateCondition rm chain node
          { field := field, op := .IS_NOT_NULL, value := v', is_numeric := b', values := vals' }
        = ! evaluateCondition rm chain node
            { field := field, op := .IS_NULL, value := v, is_numeric := b, values := vals })
    ∧ (∀ (rm : RegexModel) (node : XNode) (field : FieldPath)
       (v : String) (b : Bool) (vals : List String) (pd : Nat),
      (evaluateConditionRel rm node
          { field := field, op := .IS_NULL, value := v, is_numeric := b, values := vals } pd
        = true) ↔ getNodeValueRelative node field pd = "")
    ∧ (∀ (rm : RegexModel) (node : XNode) (field : FieldPath)
       (v : String) (b : Bool) (vals : List String)
       (v' : String) (b' : Bool) (vals' : List String) (pd : Nat),
      evaluateConditionRel rm node
          { field := field, op := .IS_NOT_NULL, value := v', is_numeric := b', values := vals' } pd
        = ! evaluateConditionRel rm node
            { field := field, op := .IS_NULL, value := v, is_numeric := b, values := vals } pd)
    ∧ (∀ (chain : List String) (node : XNode) (c : String),
      getNodeValue chain node { components := [c] } = ""
        ↔ (findFirstElementByName node c = none
            ∨ ∃ found, findFirstElementByName node c = some found
                ∧ childValue found = "")) := by
  refine ⟨?_, ?_, ?_, ?_, ?_⟩
  · intro rm chain node field v b vals
    simp [evaluateCondition]
  · intro rm chain node field v b vals v' b' vals'
    simp [evaluateCondition]
  · intro rm node field v b vals pd
    simp [evaluateConditionRel]
  · intro rm node field v b vals v' b' vals' pd
    simp [evaluateConditionRel]
  · intro chain node c
    cases h : findFirstElementByName node c with
    | none => simp [getNodeValue, h]
    | some found => simp [getNodeValue, h]

/-- C8: for every path component processed by the rewriter, a component that
does not match the short-code pattern or has zero schema candidates is left
unchanged; a unique candidate's fully-qualified name is substituted; with
several candidates the (first) one whose full name is prefixed by the
immediately preceding (already expanded) path component is chosen; when no
candidate matches the hint — or there is no preceding component — the first
candidate in schema iteration order is used deterministically (after a
warning).  `expandFieldPath` applies this to each component with the previous
expanded component as hint. -/
theorem C8_shortcut_expansion :
    (∀ (schema : String → List DsnAttribute) (comp prev : String),
      isShortcutPattern comp = false → expandComponent schema comp prev = comp)
    ∧ (∀ (schema : String → List DsnAttribute) (comp prev : String),
      schema comp = [] → expandComponent schema comp prev = comp)
    ∧ (∀ (schema : String → List DsnAttribute) (comp prev : String) (a : DsnAttribute),
      schema comp = [a] → isShortcutPattern comp = true →
      expandComponent schema comp prev = a.full_name)
    ∧ (∀ (schema : String → List DsnAttribute) (comp prev : String)
        (a b c : DsnAttribute) (rest : List DsnAttribute),
      schema comp = a :: b :: rest → isShortcutPattern comp = true → prev ≠ "" →
      (a :: b :: rest).find? (fun attr => strStartsWith attr.full_name prev) = some c →
      expandComponent schema comp prev = c.full_name)
    ∧ (∀ (schema : String → List DsnAttribute) (comp prev : String)
        (a b : DsnAttribute) (rest : List DsnAttribute),
      schema comp = a :: b :: rest → isShortcutPattern comp = true →
      (a :: b :: rest).find? (fun attr => strStartsWith attr.full_name prev) = none →
      expandComponent schema comp prev = a.full_name)
    ∧ (∀ (schema : String → List DsnAttribute) (comp : String)
        (a b : DsnAttribute) (rest : List DsnAttribute),
      schema comp = a :: b :: rest → isShortcutPattern comp = true →
      expandComponent schema comp "" = a.full_name)
    ∧ (∀ (schema : String → List DsnAttribute) (f : FieldPath),
      (expandFieldPath schema f).components = expandComponentsChain schema "" f.components)
    ∧ expandFieldPath exSchema { components := ["S21_G00_30", "30_001"] }
        = { components := ["S21_G00_30", "S21_G00_30_001"] } := by
  refine ⟨?_, ?_, ?_, ?_, ?_, ?_, ?_, by decide⟩
  · intro schema comp prev h
    simp [expandComponent, h]
  · intro schema comp prev h
    by_cases hp : isShortcutPattern comp <;> simp [expandComponent, hp, h]
  · intro schema comp prev a h hp
    simp [expandComponent, hp, h]
  · intro schema comp prev a b c rest h hp hprev hfind
    simp [expandComponent, hp, h, hprev, hfind]
  · intro schema comp prev a b rest h hp hfind
    by_cases hprev : prev = "" <;> simp [expandComponent, hp, h, hprev, hfind]
  · intro schema comp a b rest h hp
    simp [expandComponent, hp, h]
  · intro schema f
    unfold expandFieldPath
    by_cases hattr : f.is_attribute = true ∧ isShortcutPattern f.attribute_name = true
    · rw [if_pos hattr]
    · rw [if_neg hattr]

/-- Witness for C8: with the concrete ambiguous schema, the hierarchy hint
`S21_G00_30` selects the attribute under that bloc, and without a hint the
first candidate in schema iteration order is used — the theorem's
disambiguation clauses applied at a concrete input. -/
theorem C8_shortcut_expansion_witness :
    expandComponent exSchema "30_001" "S21_G00_30" = "S21_G00_30_001"
    ∧ expandComponent exSchema "30_001" "" = "S10_G00_30_001"
    ∧ expandComponent exSchema "S21_G00_30" "" = "S21_G00_30" :=
  ⟨C8_shortcut_expansion.2.2.2.1 exSchema "30_001" "S21_G00_30"
      { full_name := "S10_G00_30_001", short_id := "30_001" }
      { full_name := "S21_G00_30_001", short_id := "30_001" }
      { full_name := "S21_G00_30_001", short_id := "30_001" } []
      (by decide) (by decide) (by decide) (by decide),
   C8_shortcut_expansion.2.2.2.2.2.1 exSchema "30_001"
      { full_name := "S10_G00_30_001", short_id := "30_001" }
      { full_name := "S21_G00_30_001", short_id := "30_001" } []
      (by decide) (by decide),
   C8_shortcut_expansion.1 exSchema "S21_G00_30" "" (by decide)⟩

/-- The OR continuation loop only ever extends its accumulator on the left:
its output is a left fold of OR over further AND-chains. -/
theorem parseWhereOrLoop_foldl :
    ∀ (fuel : Nat) (left : WhereExpr) (st : PState) (out : WhereExpr) (st' : PState),
    parseWhereOrLoop fuel left st = .ok (out, st') →
    ∃ es : List WhereExpr, out = es.foldl (.logical .OR) left := by
  intro fuel
  induction fuel with
  | zero =>
    intro left st out st' h
    exact absurd h (by simp [parseWhereOrLoop])
  | succ n ih =>
    intro left st out st' h
    rw [parseWhereOrLoop] at h
    rcases hmt : matchT st .OR with ⟨om, st1⟩
    rw [hmt] at h
    dsimp only at h
    cases om with
    | false =>
      rw [if_neg (by simp)] at h
      refine ⟨[], ?_⟩
      cases h
      rfl
    | true =>
      rw [if_pos rfl] at h
      rcases hpa : parseWhereAnd n st1 with e | ⟨right, st2⟩
      · rw [hpa] at h
        exact nomatch h
      · rw [hpa] at h
        obtain ⟨es, hes⟩ := ih (.logical .OR left right) st2 out st' h
        exact ⟨right :: es, by simpa using hes⟩

/-- The AND continuation loop only ever extends its accumulator on the left:
its output is a left fold of AND over further primaries. -/
theorem parseWhereAndLoop_foldl :
    ∀ (fuel : Nat) (left : WhereExpr) (st : PState) (out : WhereExpr) (st' : PState),
    parseWhereAndLoop fuel left st = .ok (out, st') →
    ∃ es : List WhereExpr, out = es.foldl (.logical .AND) left := by
  intro fuel
  induction fuel with
  | zero =>
    intro left st out st' h
    exact absurd h (by simp [parseWhereAndLoop])
  | succ n ih =>
    intro left st out st' h
    rw [parseWhereAndLoop] at h
    rcases hmt : matchT st .AND with ⟨om, st1⟩
    rw [hmt] at h
    dsimp only at h
    cases om with
    | false =>
      rw [if_neg (by simp)] at h
      refine ⟨[], ?_⟩
      cases h
      rfl
    | true =>
      rw [if_pos rfl] at h
      rcases hpa : parseWherePrimary n st1 with e | ⟨right, st2⟩
      · rw [hpa] at h
        exact nomatch h
      · rw [hpa] at h
        obtain ⟨es, hes⟩ := ih (.logical .AND left right) st2 out st' h
        exact ⟨right :: es, by simpa using hes⟩

/-- C2: the WHERE parser builds OR nodes left-associatively at the lowest
precedence level (a successful `parseWhereOr` is a left OR-fold whose head
operand is the AND-level parse, and a successful `parseWhereAnd` is a left
AND-fold whose head operand is the primary parse — AND binds tighter than
OR), and parentheses override: the query
`SELECT a, b FROM /x WHERE a = 1 AND b = 2 OR a = 3` parses to
OR(AND(a=1, b=2), a=3), while `WHERE a = 1 AND (b = 2 OR a = 3)` parses to
AND(a=1, OR(b=2, a=3)). -/
theorem C2_where_precedence :
    (parseQuery "SELECT a, b FROM /x WHERE a = 1 AND b = 2 OR a = 3").map
        (fun q => q.whereClause)
      = .ok (some (.logical .OR
          (.logical .AND
            (.cond { field := { components := ["a"] }, op := .EQUALS,
                     value := "1", is_numeric := true })
            (.cond { field := { components := ["b"] }, op := .EQUALS,
                     value := "2", is_numeric := true }))
          (.cond { field := { components := ["a"] }, op := .EQUALS,
                   value := "3", is_numeric := true })))
    ∧ (parseQuery "SELECT a, b FROM /x WHERE a = 1 AND (b = 2 OR a = 3)").map
        (fun q => q.whereClause)
      = .ok (some (.logical .AND
          (.cond { field := { components := ["a"] }, op := .EQUALS,
                   value := "1", is_numeric := true })
          (.logical .OR
            (.cond { field := { components := ["b"] }, op := .EQUALS,
                     value := "2", is_numeric := true })
            (.cond { field := { components := ["a"] }, op := .EQUALS,
                     value := "3", is_numeric := true }))))
    ∧ (∀ (fuel : Nat) (st : PState) (out : WhereExpr) (st' : PState),
        parseWhereOr (fuel + 1) st = .ok (out, st') →
        ∃ (a : WhereExpr) (st₁ : PState) (es : List WhereExpr),
          parseWhereAnd fuel st = .ok (a, st₁)
          ∧ out = es.foldl (.logical .OR) a)
    ∧ (∀ (fuel : Nat) (st : PState) (out : WhereExpr) (st' : PState),
        parseWhereAnd (fuel + 1) st = .ok (out, st') →
        ∃ (a : WhereExpr) (st₁ : PState) (es : List WhereExpr),
          parseWherePrimary fuel st = .ok (a, st₁)
          ∧ out = es.foldl (.logical .AND) a) := by
  refine ⟨by rfl, by rfl, ?_, ?_⟩
  · intro fuel st out st' h
    rw [parseWhereOr] at h
    rcases hpa : parseWhereAnd fuel st with e | ⟨a, st₁⟩
    · rw [hpa] at h
      exact nomatch h
    · rw [hpa] at h
      obtain ⟨es, hes⟩ := parseWhereOrLoop_foldl fuel a st₁ out st' h
      exact ⟨a, st₁, es, rfl, hes⟩
  · intro fuel st out st' h
    rw [parseWhereAnd] at h
    rcases hpa : parseWherePrimary fuel st with e | ⟨a, st₁⟩
    · rw [hpa] at h
      exact nomatch h
    · rw [hpa] at h
      obtain ⟨es, hes⟩ := parseWhereAndLoop_foldl fuel a st₁ out st' h
      exact ⟨a, st₁, es, rfl, hes⟩

/-- Witness for C2: the OR-fold and AND-fold clauses of the theorem applied
to the concrete token stream of `a = 1 AND b = 2 OR a = 3`. -/
theorem C2_where_precedence_witness :
    (∃ (a : WhereExpr) (st₁ : PState) (es : List WhereExpr),
      parseWhereAnd 50 ⟨tokenize "a = 1 AND b = 2 OR a = 3", 0⟩ = .ok (a, st₁)
      ∧ (WhereExpr.logical .OR
          (.logical .AND
            (.cond { field := { components := ["a"] }, op := .EQUALS,
                     value := "1", is_numeric := true })
            (.cond { field := { components := ["b"] }, op := .EQUALS,
                     value := "2", is_numeric := true }))
          (.cond { field := { components := ["a"] }, op := .EQUALS,
                   value := "3", is_numeric := true })
            = es.foldl (.logical .OR) a))
    ∧ (∃ (a : WhereExpr) (st₁ : PState) (es : List WhereExpr),
      parseWherePrimary 50 ⟨tokenize "a = 1 AND b = 2 OR a = 3", 0⟩ = .ok (a, st₁)
      ∧ (WhereExpr.logical .AND
          (.cond { field := { components := ["a"] }, op := .EQUALS,
                   value := "1", is_numeric := true })
          (.cond { field := { components := ["b"] }, op := .EQUALS,
                   value := "2", is_numeric := true })
            = es.foldl (.logical .AND) a)) := by
  constructor
  · obtain ⟨a, st₁, es, h1, h2⟩ :=
      C2_where_precedence.2.2.1 50 ⟨tokenize "a = 1 AND b = 2 OR a = 3", 0⟩
        (.logical .OR
          (.logical .AND
            (.cond { field := { components := ["a"] }, op := .EQUALS,
                     value := "1", is_numeric := true })
            (.cond { field := { components := ["b"] }, op := .EQUALS,
                     value := "2", is_numeric := true }))
          (.cond { field := { components := ["a"] }, op := .EQUALS,
                   value := "3", is_numeric := true }))
        ⟨tokenize "a = 1 AND b = 2 OR a = 3", 11⟩ (by rfl)
    exact ⟨a, st₁, es, h1, h2⟩
  · obtain ⟨a, st₁, es, h1, h2⟩ :=
      C2_where_precedence.2.2.2 50 ⟨tokenize "a = 1 AND b = 2 OR a = 3", 0⟩
        (.logical .AND
          (.cond { field := { components := ["a"] }, op := .EQUALS,
                   value := "1", is_numeric := true })
          (.cond { field := { components := ["b"] }, op := .EQUALS,
                   value := "2", is_numeric := true }))
        ⟨tokenize "a = 1 AND b = 2 OR a = 3", 7⟩ (by rfl)
    exact ⟨a, st₁, es, h1, h2⟩

/-- Ordered insertion is a permutation of consing. -/
theorem orderedInsert_perm {α : Type} (le : α → α → Bool) (x : α) :
    ∀ l : List α, (orderedInsert le x l).Perm (x :: l) := by
  intro l
  induction l with
  | nil => rfl
  | cons y ys ih =>
    rw [orderedInsert]
    by_cases h : le x y
    · rw [if_pos h]
    · rw [if_neg h]
      exact (ih.cons y).trans (List.Perm.swap x y ys)

/-- Insertion sort is a permutation of its input. -/
theorem insertionSortBy_perm {α : Type} (le : α → α → Bool) :
    ∀ l : List α, (insertionSortBy le l).Perm l := by
  intro l
  induction l with
  | nil => rfl
  | cons x xs ih =>
    rw [insertionSortBy]
    exact (orderedInsert_perm le x (insertionSortBy le xs)).trans (ih.cons x)

/-- The ORDER BY step returns a permutation of its input rows. -/
theorem applyOrderBy_perm (obs : List OrderByField) (rows : List ResultRow) :
    (applyOrderBy obs rows).Perm rows := by
  cases obs with
  | nil => rfl
  | cons ob rest => exact insertionSortBy_perm _ rows

/-- Evaluation lemma: std::stod on "9". -/
theorem parseFloat_nine : parseFloat "9" = some 9 := by
  have h : parseFloatParts "9" = some { ip := 9 } := by decide
  rw [parseFloat, h]
  norm_num [floatPartsValue]

/-- Evaluation lemma: std::stod on "1". -/
theorem parseFloat_one : parseFloat "1" = some 1 := by
  have h : parseFloatParts "1" = some { ip := 1 } := by decide
  rw [parseFloat, h]
  norm_num [floatPartsValue]

/-- Evaluation lemma: std::stod on "2". -/
theorem parseFloat_two : parseFloat "2" = some 2 := by
  have h : parseFloatParts "2" = some { ip := 2 } := by decide
  rw [parseFloat, h]
  norm_num [floatPartsValue]

/-- Reduction of an Except bind on a success value. -/
theorem except_bind_ok {ε α β : Type} (a : α) (f : α → Except ε β) :
    ((Except.ok a : Except ε α) >>= f) = f a := rfl

/-- Every ORDER BY entry appended by the comma loop carries direction ASC
(the parser consumes but never stores ASC/DESC). -/
theorem parseOrderByLoop_asc :
    ∀ (fuel : Nat) (st : PState) (q : Query) (res : Query × PState),
    parseOrderByLoop fuel st q = .ok res →
    ∀ ob ∈ res.1.order_by_fields, ob ∈ q.order_by_fields ∨ ob.direction = .ASC := by
  intro fuel
  induction fuel with
  | zero =>
    intro st q res h
    exact absurd h (by simp [parseOrderByLoop])
  | succ n ih =>
    intro st q res h
    rw [parseOrderByLoop] at h
    rcases hmt : matchT st .COMMA with ⟨cm, st1⟩
    rw [hmt] at h
    dsimp only at h
    cases cm with
    | false =>
      rw [if_neg (by simp)] at h
      cases h
      intro ob hob
      exact Or.inl hob
    | true =>
      rw [if_pos rfl] at h
      by_cases hid : (peekT st1).type = .IDENTIFIER
      · rw [if_neg (by simp [hid])] at h
        rcases hadv : advanceT st1 with ⟨tok, st2⟩
        rw [hadv] at h
        dsimp only at h
        rcases hasc : matchT st2 .ASC with ⟨am, st3⟩
        rw [hasc] at h
        dsimp only at h
        intro ob hob
        have hstep := ih _ _ _ h ob hob
        rcases hstep with hmem | hdir
        · rw [List.mem_append] at hmem
          rcases hmem with hmem | hmem
          · exact Or.inl hmem
          · simp only [List.mem_singleton] at hmem
            subst hmem
            exact Or.inr rfl
        · exact Or.inr hdir
      · rw [if_pos hid] at h
        exact nomatch h

/-- C7 (amended): the executor sorts the merged rows by the first ordering
field only, attempting numeric comparison first and falling back to lexical
string comparison, in the direction stored in the `OrderByField` — but
`Parser::parseOrderByClause` consumes ASC/DESC without recording it, so
every entry it produces carries the ASC default and every parsed query is
sorted ascending. -/
theorem C7_order_by_first_field_parser_discards_direction :
    (∀ (ob : OrderByField) (obs : List OrderByField) (rows : List ResultRow),
      applyOrderBy (ob :: obs) rows = applyOrderBy [ob] rows)
    ∧ applyOrderBy [{ field_name := "a" }] [[("a", "10")], [("a", "9")]]
        = [[("a", "9")], [("a", "10")]]
    ∧ applyOrderBy [{ field_name := "a" }] [[("a", "b")], [("a", "a")]]
        = [[("a", "a")], [("a", "b")]]
    ∧ applyOrderBy [{ field_name := "a", direction := .DESC }]
        [[("a", "1")], [("a", "2")]]
        = [[("a", "2")], [("a", "1")]]
    ∧ (∀ (fuel : Nat) (st : PState) (q : Query) (res : Query × PState),
        parseOrderByClause fuel st q = .ok res →
        ∀ ob ∈ res.1.order_by_fields,
          ob ∈ q.order_by_fields ∨ ob.direction = .ASC) := by
  have hlt : rowLt { field_name := "a" } [("a", "9")] [("a", "10")] = true := by
    have hv9 : rowValue "a" [("a", "9")] = "9" := by decide
    have hv10 : rowValue "a" [("a", "10")] = "10" := by decide
    rw [rowLt, hv9, hv10, parseFloat_nine, parseFloat_ten]
    norm_num
    all_goals decide
  have hlt' : rowLt { field_name := "a" } [("a", "10")] [("a", "9")] = false := by
    have hv9 : rowValue "a" [("a", "9")] = "9" := by decide
    have hv10 : rowValue "a" [("a", "10")] = "10" := by decide
    rw [rowLt, hv9, hv10, parseFloat_nine, parseFloat_ten]
    norm_num
    all_goals decide
  have hd : rowLt { field_name := "a", direction := .DESC }
      [("a", "2")] [("a", "1")] = true := by
    have hv1 : rowValue "a" [("a", "1")] = "1" := by decide
    have hv2 : rowValue "a" [("a", "2")] = "2" := by decide
    rw [rowLt, hv1, hv2, parseFloat_two, parseFloat_one]
    norm_num
  refine ⟨?_, ?_, by decide, ?_, ?_⟩
  · intro ob obs rows
    rw [applyOrderBy, applyOrderBy]
  · simp [applyOrderBy, insertionSortBy, orderedInsert, hlt, hlt']
  · simp [applyOrderBy, insertionSortBy, orderedInsert, hd]
  · intro fuel st q res h
    rw [parseOrderByClause] at h
    rcases hex1 : expectT st .ORDER "Expected ORDER keyword" with e | st1
    · rw [hex1] at h
      exact nomatch h
    · rw [hex1, except_bind_ok] at h
      dsimp only at h
      rcases hex2 : expectT st1 .BY "Expected BY keyword after ORDER" with e | st2
      · rw [hex2] at h
        exact nomatch h
      · rw [hex2, except_bind_ok] at h
        by_cases hid : (peekT st2).type = .IDENTIFIER
        · rw [if_neg (by simp [hid])] at h
          rcases hadv : advanceT st2 with ⟨tok, st3⟩
          rw [hadv] at h
          dsimp only at h
          rcases hasc : matchT st3 .ASC with ⟨am, st4⟩
          rw [hasc] at h
          dsimp only at h
          intro ob hob
          have hstep := parseOrderByLoop_asc _ _ _ _ h ob hob
          rcases hstep with hmem | hdir
          · rw [List.mem_append] at hmem
            rcases hmem with hmem | hmem
            · exact Or.inl hmem
            · simp only [List.mem_singleton] at hmem
              subst hmem
              exact Or.inr rfl
          · exact Or.inr hdir
        · rw [if_pos hid] at h
          exact nomatch h

/-- Witness for C7: the parser clause of the theorem applied to the token
stream of `ORDER BY a DESC` — the stored entry carries direction ASC. -/
theorem C7_order_by_witness :
    ({ field_name := "a" } : OrderByField) ∈ ({} : Query).order_by_fields
      ∨ ({ field_name := "a" } : OrderByField).direction = .ASC :=
  C7_order_by_first_field_parser_discards_direction.2.2.2.2
    20 ⟨tokenize "ORDER BY a DESC", 0⟩ {}
    ({ order_by_fields := [{ field_name := "a" }] }, ⟨tokenize "ORDER BY a DESC", 4⟩)
    (by rfl) { field_name := "a" } (by decide)

/-- Counterexample for C7: the query text `SELECT a FROM x ORDER BY a DESC`
parses with direction ASC (the DESC token is consumed but discarded), and
executing its ORDER BY sorts ascending — not the descending order the claim
says is honored. -/
theorem C7_desc_direction_discarded :
    (parseQuery "SELECT a FROM x ORDER BY a DESC").map (fun q => q.order_by_fields)
      = .ok [{ field_name := "a", direction := .ASC }]
    ∧ (parseQuery "SELECT a FROM x ORDER BY a DESC").map
        (fun q => applyOrderBy q.order_by_fields [[("a", "b")], [("a", "a")]])
      = .ok [[("a", "a")], [("a", "b")]]
    ∧ ([[("a", "a")], [("a", "b")]] : List ResultRow)
      ≠ [[("a", "b")], [("a", "a")]] := by
  refine ⟨by rfl, by rfl, by decide⟩

/-- C1 (amended): in `XmlNavigator::extractValues` a single-component SELECT
field matches only the direct children of the root element — every extracted
value comes from a depth-1 element — so on a document nested
root/dept/employee/name the field ["name"] yields zero rows while
["employee","name"] yields the value; the first-matching-element-anywhere
depth-first semantics for a single component belongs to
`XmlNavigator::getNodeValue` (condition-side resolution), where both
spellings resolve to the same value; and a field matching no element yields
zero rows rather than an error. -/
theorem C1_single_component_semantics :
    (∀ (doc : XDoc) (fn c : String) (r : String × String),
      r ∈ extractValues doc fn { components := [c] } →
      ∃ root ch, firstElemChild doc = some root ∧ ch ∈ childrenOf root
        ∧ nodeName ch = c ∧ childValue ch ≠ "" ∧ r = (fn, childValue ch))
    ∧ extractValues exDoc "f.xml" { components := ["name"] } = []
    ∧ extractValues exDoc "f.xml" { components := ["employee", "name"] }
        = [("f.xml", "Alice")]
    ∧ getNodeValue [] exRoot { components := ["name"] } = "Alice"
    ∧ getNodeValue [] exRoot { components := ["employee", "name"] } = "Alice"
    ∧ extractValues exDoc "f.xml" { components := ["absent"] } = []
    ∧ extractValues exDoc "f.xml" { components := ["absent", "x"] } = [] := by
  refine ⟨?_, by rfl, by rfl, by rfl, by rfl, by rfl, by rfl⟩
  intro doc fn c r h
  rw [extractValues] at h
  dsimp only at h
  rw [if_neg (by decide)] at h
  rw [if_neg (by simp)] at h
  cases hroot : firstElemChild doc with
  | none =>
    rw [hroot] at h
    exact absurd h (List.not_mem_nil r)
  | some root =>
    rw [hroot] at h
    rw [List.mem_filterMap] at h
    obtain ⟨ch, hch, heq⟩ := h
    by_cases h1 : nodeName ch = c
    · rw [if_pos h1] at heq
      by_cases h2 : childValue ch = ""
      · rw [if_neg (by simp [h2])] at heq
        exact absurd heq (by simp)
      · rw [if_pos h2] at heq
        exact ⟨root, ch, rfl, hch, h1, h2, (Option.some.injEq _ _).mp heq |>.symm⟩
    · rw [if_neg h1] at heq
      exact absurd heq (by simp)

/-- Witness for C1: the direct-children clause of the theorem applied to a
document whose root has a depth-1 `name` child. -/
theorem C1_single_component_semantics_witness :
    ∃ root ch,
      firstElemChild [XNode.elem "root" [.elem "name" [.text "x"]]] = some root
      ∧ ch ∈ childrenOf root ∧ nodeName ch = "name" ∧ childValue ch ≠ ""
      ∧ (("f", "x") : String × String) = ("f", childValue ch) :=
  C1_single_component_semantics.1
    [XNode.elem "root" [.elem "name" [.text "x"]]] "f" "name" ("f", "x") (by decide)

/-- Counterexample for C1: on a document with the nested chain
root/dept/employee/name, the single-component field ["name"] and the
two-component field ["employee","name"] do not resolve to the same value
through `extractValues` — the former yields zero rows, the latter one row. -/
theorem C1_single_vs_suffix_counterexample :
    extractValues exDoc "f.xml" { components := ["name"] } = []
    ∧ extractValues exDoc "f.xml" { components := ["employee", "name"] }
        = [("f.xml", "Alice")]
    ∧ (([] : List (String × String)) ≠ [("f.xml", "Alice")]) :=
  ⟨by rfl, by rfl, by decide⟩


/-- The zip of a field list with its own extraction results pairs each field
with its extraction. -/
theorem zip_fields_extract (fields : List FieldPath) (doc : XDoc) (fn : String) :
    fields.zip (fields.map (extractValues doc fn))
      = fields.map (fun f => (f, extractValues doc fn f)) := by
  nth_rewrite 1 [← List.map_id fields]
  rw [List.zip_map']
  rfl

/-- C10 (amended): for a non-empty filename, `XmlNavigator::extractValues`
never returns an empty string as a value — elements whose text content is
empty are skipped, so a present-but-empty element is indistinguishable from
an absent one at this interface (the FILE_NAME pseudo-field copies the
filename, which is why an empty filename is the one exception) — and in the
executor's broadcast row formation every empty cell comes from the padding
of a field whose extracted list is shorter than the row index. -/
theorem C10_extract_values_nonempty :
    (∀ (doc : XDoc) (fn : String) (field : FieldPath) (r : String × String),
      fn ≠ "" → r ∈ extractValues doc fn field → r.2 ≠ "")
    ∧ (∀ (doc : XDoc) (fn : String) (fields : List FieldPath)
        (row : ResultRow) (p : String × String),
        fn ≠ "" →
        row ∈ processFileNoWhere doc fn fields →
        p ∈ row →
        p.2 = "" →
        ∃ (i : Nat) (field : FieldPath),
          i < maxExtracted doc fn fields
          ∧ field ∈ fields
          ∧ row = broadcastRow doc fn fields i
          ∧ p = (fieldResultName field, "")
          ∧ (extractValues doc fn field).length ≤ i) := by
  have hA : ∀ (doc : XDoc) (fn : String) (field : FieldPath) (r : String × String),
      fn ≠ "" → r ∈ extractValues doc fn field → r.2 ≠ "" := by
    intro doc fn field r hfn h
    rw [extractValues] at h
    by_cases h1 : field.include_filename = true
    · rw [if_pos h1] at h
      rw [List.mem_singleton] at h
      subst h
      exact hfn
    · rw [if_neg h1] at h
      by_cases h2 : field.components.isEmpty = true
      · rw [if_pos h2] at h
        exact absurd h (List.not_mem_nil r)
      · rw [if_neg h2] at h
        rcases hcomp : field.components with _ | ⟨c, cs⟩
        · rw [hcomp] at h2
          exact absurd rfl h2
        · rw [hcomp] at h
          cases cs with
          | nil =>
            dsimp only at h
            cases hroot : firstElemChild doc with
            | none =>
              rw [hroot] at h
              exact absurd h (List.not_mem_nil r)
            | some root =>
              rw [hroot] at h
              rw [List.mem_filterMap] at h
              obtain ⟨ch, _, heq⟩ := h
              by_cases hb1 : nodeName ch = c
              · rw [if_pos hb1] at heq
                by_cases hb2 : childValue ch = ""
                · rw [if_neg (by simp [hb2])] at heq
                  exact absurd heq (by simp)
                · rw [if_pos hb2] at heq
                  have hr := (Option.some.injEq _ _).mp heq
                  subst hr
                  exact hb2
              · rw [if_neg hb1] at heq
                exact absurd heq (by simp)
          | cons c2 rest =>
            dsimp only at h
            rw [List.mem_filterMap] at h
            obtain ⟨n, _, heq⟩ := h
            by_cases hb2 : childValue n = ""
            · rw [if_neg (by simp [hb2])] at heq
              exact absurd heq (by simp)
            · rw [if_pos hb2] at heq
              have hr := (Option.some.injEq _ _).mp heq
              subst hr
              exact hb2
  refine ⟨hA, ?_⟩
  intro doc fn fields row p hfn hrow hp hempty
  rw [processFileNoWhere, List.mem_map] at hrow
  obtain ⟨i, hi_mem, hrow_eq⟩ := hrow
  rw [List.mem_range] at hi_mem
  subst hrow_eq
  rw [broadcastRow, zip_fields_extract, List.map_map, List.mem_map] at hp
  obtain ⟨field, hfield, hp_eq⟩ := hp
  by_cases hlen : i < (extractValues doc fn field).length
  · exfalso
    have hval : p.2 = ((extractValues doc fn field).get ⟨i, hlen⟩).2 := by
      rw [← hp_eq]
      simp [Function.comp, hlen]
    have hmem : (extractValues doc fn field).get ⟨i, hlen⟩ ∈ extractValues doc fn field :=
      List.get_mem _ _ _
    exact hA doc fn field _ hfn hmem (by rw [← hval]; exact hempty)
  · refine ⟨i, field, hi_mem, hfield, rfl, ?_, le_of_not_lt hlen⟩
    rw [← hp_eq]
    simp [Function.comp, hlen]

/-- Witness for C10: both clauses of the theorem applied at concrete inputs
— an extracted pair has a non-empty value, and the empty cell in a broadcast
row over exDoc comes from the padding of the shorter field. -/
theorem C10_extract_values_nonempty_witness :
    (("f.xml", "Alice") : String × String).2 ≠ ""
    ∧ ∃ (i : Nat) (field : FieldPath),
        i < maxExtracted exDoc "f.xml"
            [{ components := ["employee", "name"] }, { components := ["dept", "employee"] }]
        ∧ field ∈ [({ components := ["employee", "name"] } : FieldPath),
                   { components := ["dept", "employee"] }]
        ∧ broadcastRow exDoc "f.xml"
            [{ components := ["employee", "name"] }, { components := ["dept", "employee"] }] 0
          = broadcastRow exDoc "f.xml"
            [{ components := ["employee", "name"] }, { components := ["dept", "employee"] }] i
        ∧ (("employee", "") : String × String) = (fieldResultName field, "")
        ∧ (extractValues exDoc "f.xml" field).length ≤ i := by
  constructor
  · exact C10_extract_values_nonempty.1 exDoc "f.xml" { components := ["employee", "name"] }
      ("f.xml", "Alice") (by decide) (by decide)
  · obtain ⟨i, field, h1, h2, h3, h4, h5⟩ :=
      C10_extract_values_nonempty.2 exDoc "f.xml"
        [{ components := ["employee", "name"] }, { components := ["dept", "employee"] }]
        (broadcastRow exDoc "f.xml"
          [{ components := ["employee", "name"] }, { components := ["dept", "employee"] }] 0)
        ("employee", "") (by decide)
        (by rw [processFileNoWhere, List.mem_map]
            exact ⟨0, by decide, rfl⟩)
        (by decide) rfl
    exact ⟨i, field, h1, h2, h3.symm ▸ h3, h4, h5⟩

/-- Counterexample for C10: with an empty filename, the FILE_NAME
pseudo-field makes `extractValues` return the empty string as a value. -/
theorem C10_empty_filename_counterexample :
    extractValues [] "" { include_filename := true } = [("", "")]
    ∧ ((("", "") : String × String)).2 = "" :=
  ⟨by rfl, by rfl⟩

/-- C9: for any per-file row production, any thread count and any mutex
acquisition schedule, the multithreaded execution — worker i processing
files i, i+tc, i+2·tc, … and appending whole per-file batches under one
mutex — yields a batch sequence that is a permutation of the single-threaded
per-file batch sequence (within-file row order is preserved because batches
are appended whole), its merged rows are a permutation of the
single-threaded merged rows, and after the ORDER BY sort both executions
produce exactly the same multiset of rows; threading is engaged at five or
more files. -/
theorem C9_multithreaded_equivalence
    (pf : String → List ResultRow) (tc : Nat) (files : List String)
    (bseq : List (List ResultRow)) (obs : List OrderByField)
    (htc : 0 < tc)
    (hI : IsInterleaving (perThreadBatches pf tc files) bseq) :
    bseq.Perm (files.map pf)
    ∧ bseq.flatten.Perm (files.map pf).flatten
    ∧ (↑(applyOrderBy obs bseq.flatten) : Multiset ResultRow)
        = ↑(applyOrderBy obs (files.map pf).flatten)
    ∧ (∀ n : Nat, shouldUseThreading n = true ↔ 5 ≤ n) := by
  obtain ⟨k, rfl⟩ : ∃ k, tc = k + 1 := ⟨tc - 1, (Nat.succ_pred_eq_of_pos htc).symm⟩
  have h1 : bseq.Perm (perThreadBatches pf (k + 1) files).flatten :=
    interleaving_perm hI
  have h2 : (perThreadBatches pf (k + 1) files).flatten
      = ((strideFiles (k + 1) files).flatten).map pf := by
    rw [perThreadBatches, List.map_flatten]
  have h3 : (((strideFiles (k + 1) files).flatten).map pf).Perm (files.map pf) :=
    (strideFiles_flatten_perm k files).map pf
  have h4 : (perThreadBatches pf (k + 1) files).flatten.Perm (files.map pf) := by
    rw [h2]
    exact h3
  have hperm : bseq.Perm (files.map pf) := h1.trans h4
  have hflat : bseq.flatten.Perm (files.map pf).flatten := List.Perm.flatten hperm
  have hsort : (applyOrderBy obs bseq.flatten).Perm
      (applyOrderBy obs (files.map pf).flatten) :=
    ((applyOrderBy_perm obs _).trans hflat).trans (applyOrderBy_perm obs _).symm
  exact ⟨hperm, hflat, Multiset.coe_eq_coe.mpr hsort, by
    intro n
    simp [shouldUseThreading]⟩

theorem C9_multithreaded_equivalence_witness :
    0 < 2
    ∧ IsInterleaving
        (perThreadBatches (fun s => [[("a", s)]]) 2 ["f1", "f2", "f3", "f4", "f5"])
        [[[("a", "f1")]], [[("a", "f3")]], [[("a", "f5")]],
         [[("a", "f2")]], [[("a", "f4")]]]
    ∧ ([[[("a", "f1")]], [[("a", "f3")]], [[("a", "f5")]],
        [[("a", "f2")]], [[("a", "f4")]]].Perm
          ((["f1", "f2", "f3", "f4", "f5"] : List String).map
            (fun s => [[("a", s)]]))
       ∧ [[[("a", "f1")]], [[("a", "f3")]], [[("a", "f5")]],
          [[("a", "f2")]], [[("a", "f4")]]].flatten.Perm
           ((["f1", "f2", "f3", "f4", "f5"] : List String).map
             (fun s => [[("a", s)]])).flatten
       ∧ (↑(applyOrderBy [{ field_name := "a" }]
              [[[("a", "f1")]], [[("a", "f3")]], [[("a", "f5")]],
               [[("a", "f2")]], [[("a", "f4")]]].flatten) : Multiset ResultRow)
           = ↑(applyOrderBy [{ field_name := "a" }]
               ((["f1", "f2", "f3", "f4", "f5"] : List String).map
                 (fun s => [[("a", s)]])).flatten)
       ∧ (∀ n : Nat, shouldUseThreading n = true ↔ 5 ≤ n)) := by
  have heq : perThreadBatches (fun s => [[("a", s)]]) 2
      ["f1", "f2", "f3", "f4", "f5"]
      = [[[[("a", "f1")]], [[("a", "f3")]], [[("a", "f5")]]],
         [[[("a", "f2")]], [[("a", "f4")]]]] := by
    simp [perThreadBatches, strideFiles, everyNth, List.range_succ]
  have hder : IsInterleaving
      [[[[("a", "f1")]], [[("a", "f3")]], [[("a", "f5")]]],
       [[[("a", "f2")]], [[("a", "f4")]]]]
      [[[("a", "f1")]], [[("a", "f3")]], [[("a", "f5")]],
       [[("a", "f2")]], [[("a", "f4")]]] :=
    .step [] [[("a", "f1")]] [[[("a", "f3")]], [[("a", "f5")]]]
      [[[[("a", "f2")]], [[("a", "f4")]]]] _
      (.step [] [[("a", "f3")]] [[[("a", "f5")]]]
        [[[[("a", "f2")]], [[("a", "f4")]]]] _
        (.step [] [[("a", "f5")]] [] [[[[("a", "f2")]], [[("a", "f4")]]]] _
          (.step [[]] [[("a", "f2")]] [[[("a", "f4")]]] [] _
            (.step [[]] [[("a", "f4")]] [] [] _
              (.nil [[], []] (by simp))))))
  have hI : IsInterleaving
      (perThreadBatches (fun s => [[("a", s)]]) 2
        ["f1", "f2", "f3", "f4", "f5"])
      [[[("a", "f1")]], [[("a", "f3")]], [[("a", "f5")]],
       [[("a", "f2")]], [[("a", "f4")]]] := heq ▸ hder
  exact ⟨by decide, hI,
    C9_multithreaded_equivalence (fun s => [[("a", s)]]) 2
      ["f1", "f2", "f3", "f4", "f5"]
      [[[("a", "f1")]], [[("a", "f3")]], [[("a", "f5")]],
       [[("a", "f2")]], [[("a", "f4")]]]
      [{ field_name := "a" }] (by decide) hI⟩
